import Mathlib

/-!
Verification development for the WebsiteBuilder repository's site-cloning
pipeline (`src/backend/src/services/websiteCloner.js`).

The JavaScript source is shallowly embedded: each modelled method of the
`WebsiteCloner` class becomes an executable Lean definition of the same name,
translated statement by statement from the source.  Strings are Lean
`String`s processed through structurally recursive `List Char` helpers (so
that concrete runs reduce inside the kernel), machine integers are `Nat`,
the network and the filesystem are explicit oracles passed to the functions
that use them, and `Date.now()` is modelled by an explicit stream of
timestamps threaded through the state (the source calls `Date.now()` once
per generated file name).
-/

namespace WebsiteCloner

/-! ## Generic string helpers (embedding JS string primitives) -/

/-- Does `pat` occur as a contiguous sublist of `s`? -/
def listInfix (pat s : List Char) : Bool :=
  match s with
  | [] => pat.isEmpty
  | _ :: rest => pat.isPrefixOf s || listInfix pat rest

/-- JS `String.prototype.includes` (case-sensitive substring test). -/
def strIncludes (s pat : String) : Bool :=
  listInfix pat.toList s.toList

/-- Case-insensitive substring test: embedding of a `/pat/i.test(s)` regex
test where `pat` is a plain literal (e.g. `/logo/i.test(src)`). -/
def ciIncludes (s pat : String) : Bool :=
  listInfix (pat.toList.map Char.toLower) (s.toList.map Char.toLower)

/-- Length of the maximal leading run of characters satisfying `p`. -/
def countLeading (p : Char → Bool) : List Char → Nat
  | [] => 0
  | c :: rest => if p c then countLeading p rest + 1 else 0

/-- JS `str.split(sep)` for a one-character separator (structural). -/
def splitChar (sep : Char) : List Char → List (List Char)
  | [] => [[]]
  | c :: rest =>
    match splitChar sep rest with
    | [] => [[c]]
    | rs :: rss => if c = sep then [] :: rs :: rss else (c :: rs) :: rss

/-- Join pieces with a one-character separator. -/
def joinChar (sep : Char) : List (List Char) → List Char
  | [] => []
  | [p] => p
  | p :: ps => p ++ sep :: joinChar sep ps

/-- `s.startsWith pre` on plain lists. -/
def listStarts (pre s : List Char) : Bool := pre.isPrefixOf s

/-- `s.endsWith post` on plain lists. -/
def listEnds (post s : List Char) : Bool := post.reverse.isPrefixOf s.reverse

/-! ## URL parsing (embedding of `url-parse` for plain absolute http(s) URLs)

The source parses URLs with the `url-parse` package (`new URL(...)`).  The
clone pipeline only feeds it plain absolute `http://`/`https://` page and
asset URLs (no userinfo, port, query or fragment subtleties matter to the
claims), so the embedding extracts `protocol`, `host` and `pathname` by
splitting at the first `/` after the scheme and stripping `?`/`#` suffixes
from the path. -/

structure UrlParts where
  protocol : List Char
  host : List Char
  pathname : List Char
deriving Repr, DecidableEq

/-- Strip a query string or fragment from a path. -/
def stripQuery (s : List Char) : List Char :=
  s.takeWhile (fun c => c ≠ '?' ∧ c ≠ '#')

def parseUrlCore (protocol rest : List Char) : UrlParts :=
  let host := rest.takeWhile (fun c => c ≠ '/' ∧ c ≠ '?' ∧ c ≠ '#')
  let path := stripQuery (rest.dropWhile (fun c => c ≠ '/' ∧ c ≠ '?' ∧ c ≠ '#'))
  { protocol := protocol, host := host,
    pathname := if path = [] then ['/'] else path }

/-- `new URL(s)` (url-parse) on an absolute http(s) URL; `none` models the
malformed-base failure. -/
def parseUrl (s : List Char) : Option UrlParts :=
  if listStarts "http://".toList s then some (parseUrlCore "http:".toList (s.drop 7))
  else if listStarts "https://".toList s then some (parseUrlCore "https:".toList (s.drop 8))
  else none

/-! ## `resolveUrl` (source lines 1348-1388)

Translated clause by clause.  The one JS subtlety worth flagging:
`pathSegments.slice(0, -relativeIndex)` with `relativeIndex === 0` is
`slice(0, -0)`, i.e. `slice(0, 0)`, which is the **empty** array — a plain
relative reference (no leading `../`) drops the whole base path. -/

/-- Count the leading `..` tokens, skipping interleaved `.` tokens, exactly
as the `for`/`break` loop in the source does. -/
def countRelative : List (List Char) → Nat
  | [] => 0
  | seg :: rest =>
    if seg = "..".toList then countRelative rest + 1
    else if seg = ".".toList then countRelative rest
    else 0

/-- Core of `resolveUrl` for the relative-path case, given the parsed base. -/
def resolveRelative (href : List Char) (url : UrlParts) : List Char :=
  let basePath := url.pathname
  let pathSegments := (splitChar '/' basePath).filter (fun segment => segment ≠ [])
  let hrefSegments := splitChar '/' href
  let relativeIndex := countRelative hrefSegments
  -- JS: pathSegments.slice(0, -relativeIndex); slice(0, -0) = [] (see above)
  let finalPathSegments :=
    if relativeIndex = 0 then [] else pathSegments.take (pathSegments.length - relativeIndex)
  let finalHrefSegments := (hrefSegments.drop relativeIndex).filter (fun segment => segment ≠ ".".toList)
  let finalPath := '/' :: joinChar '/' (finalPathSegments ++ finalHrefSegments)
  url.protocol ++ "//".toList ++ url.host ++ finalPath

/-- `resolveUrl(href, baseUrl)` on raw character lists. -/
def resolveUrlL (href baseUrl : List Char) : Option (List Char) :=
  if listStarts "http://".toList href ∨ listStarts "https://".toList href then some href
  else if listStarts "//".toList href then some ("https:".toList ++ href)
  else match parseUrl baseUrl with
    | none => none
    | some url =>
      if listStarts "/".toList href then some (url.protocol ++ "//".toList ++ url.host ++ href)
      else some (resolveRelative href url)

/-- `resolveUrl(href, baseUrl)`: `none` only when the base URL is malformed
(where the source's `new URL(baseUrl)` throws). -/
def resolveUrl (href baseUrl : String) : Option String :=
  (resolveUrlL href.toList baseUrl.toList).map String.mk

/-! ## `generateFileName` (source lines 1393-1417) -/

/-- `new URL(url).pathname` as used by `generateFileName`; the sweeps pass it
either the raw (possibly relative) attribute value or an absolute URL.
`url-parse` leaves a scheme-less input as a bare path. -/
def pathnameOf (url : List Char) : List Char :=
  match parseUrl url with
  | some u => u.pathname
  | none => stripQuery url

/-- Node `path.extname` restricted to a basename. -/
def extnameOfBase (base : List Char) : List Char :=
  let parts := splitChar '.' base
  if parts.length ≤ 1 then []
  else if listStarts ".".toList base ∧ parts.length = 2 then []
  else '.' :: parts.getLastD []

/-- Node `path.extname` of a path. -/
def extname (p : List Char) : List Char :=
  extnameOfBase ((splitChar '/' p).getLastD [])

/-- Node `path.basename(p)`. -/
def basenameOf (p : List Char) : List Char :=
  (splitChar '/' p).getLastD []

/-- Node `path.basename(p, ext)`. -/
def basenameExt (p ext : List Char) : List Char :=
  let nm := basenameOf p
  if ext ≠ [] ∧ listEnds ext nm ∧ nm ≠ ext then nm.take (nm.length - ext.length) else nm

/-- `getDefaultExtension` (source lines 1422-1437). -/
def getDefaultExtension (type_ : String) : List Char :=
  (if type_ = "css" then ".css"
  else if type_ = "js" then ".js"
  else if type_ = "img" then ".jpg"
  else if type_ = "font" then ".woff"
  else if type_ = "image" then ".jpg"
  else if type_ = "background-image" then ".jpg"
  else if type_ = "picture" then ".jpg"
  else if type_ = "icon" then ".ico"
  else if type_ = "cursor" then ".cur"
  else if type_ = "audio" then ".mp3"
  else if type_ = "video" then ".mp4"
  else ".txt").toList

/-- Decimal digits of a natural number (structural, via fuel). -/
def natDigitsAux : Nat → Nat → List Char
  | 0, _ => []
  | fuel + 1, n =>
    if n < 10 then [Char.ofNat (48 + n)]
    else natDigitsAux fuel (n / 10) ++ [Char.ofNat (48 + n % 10)]

/-- JS template interpolation of a number (`Date.now()` values). -/
def natChars (n : Nat) : List Char := natDigitsAux (n + 1) n

/-- `generateFileName(url, type)` on lists; `now` is the value `Date.now()`
returns at this call (the source appends it "for uniqueness"). -/
def generateFileNameL (url : List Char) (type_ : String) (now : Nat) : List Char :=
  let pathname := pathnameOf url
  let ext := extname pathname
  let ext := if ext = [] then getDefaultExtension type_ else ext
  let ext := if listInfix ".cur".toList url then ".cur".toList else ext
  let ext := if listInfix ".ico".toList url then ".ico".toList else ext
  let ext := if listInfix ".woff".toList url then ".woff".toList else ext
  let ext := if listInfix ".woff2".toList url then ".woff2".toList else ext
  let ext := if listInfix ".ttf".toList url then ".ttf".toList else ext
  let ext := if listInfix ".otf".toList url then ".otf".toList else ext
  let name := basenameExt pathname ext
  let name := if name = [] then type_.toList else name
  name ++ '-' :: natChars now ++ ext

/-- `generateFileName(url, type)` on `String`. -/
def generateFileName (url type_ : String) (now : Nat) : String :=
  String.mk (generateFileNameL url.toList type_ now)

/-! ## Clone-operation state and `downloadAsset` (source lines 1280-1343)

The per-operation mutable fields of the `WebsiteCloner` instance
(`downloadedAssets`, `failedAssets`, `debugReport` counters) together with
the output bundle (`filesWritten`, paths relative to the output directory)
and a log of actual network fetches (`fetchLog`, one entry per `axios.get`
issued by `downloadAsset`).  `times` is the stream of values `Date.now()`
returns at successive `generateFileName` calls. -/

structure FailedAsset where
  type : String
  url : String
  error : String
deriving Repr, DecidableEq

/-- Outcome of the `axios.get` the network performs for an asset URL. -/
inductive FetchOutcome where
  | ok (contentType body : String)
  | err (msg : String)
deriving Repr, DecidableEq

/-- The network, as an oracle from absolute URL to response. -/
def Network : Type := String → FetchOutcome

structure CloneState where
  downloadedAssets : List String := []
  filesWritten : List String := []
  fetchLog : List String := []
  totalAssets : Nat := 0
  successfulDownloads : Nat := 0
  failedDownloads : Nat := 0
  failedAssets : List FailedAsset := []
  times : List Nat := []
deriving Repr, DecidableEq

/-- Pop the next `Date.now()` value from the timestamp stream. -/
def takeTime (st : CloneState) : Nat × CloneState :=
  (st.times.headD 0, { st with times := st.times.tail })

/-- Content-type check in `downloadAsset` (source lines 1304-1305). -/
def isHtmlResponse (contentType : String) : Bool :=
  strIncludes contentType "text/html" || strIncludes contentType "application/xhtml"

/-- Error-page body check in `downloadAsset` (source lines 1310-1314). -/
def isErrorPage (body : String) : Bool :=
  strIncludes body "<html" || strIncludes body "<!DOCTYPE" ||
  strIncludes body "404" || strIncludes body "Not Found" || strIncludes body "Error"

/-- `downloadAsset(url, localPath)`.  If the URL is already in
`downloadedAssets` it returns immediately — in particular it does **not**
write anything at `localPath`.  Otherwise it fetches, rejects disguised HTML
error pages, writes the file and records the URL. -/
def downloadAsset (net : Network) (url localPath : String) (st : CloneState) :
    Except String Unit × CloneState :=
  if url ∈ st.downloadedAssets then (Except.ok (), st)
  else
    let st := { st with fetchLog := st.fetchLog ++ [url] }
    match net url with
    | FetchOutcome.err m => (Except.error m, st)
    | FetchOutcome.ok contentType body =>
      if isHtmlResponse contentType && isErrorPage body then
        (Except.error ("Server returned HTML error page instead of asset. Content-Type: "
            ++ contentType), st)
      else
        (Except.ok (),
         { st with filesWritten := st.filesWritten ++ [localPath],
                   downloadedAssets := url :: st.downloadedAssets })

/-! ## `processEnhancedJSAssets` (source lines 889-915)

The sweep over `script[src]` elements; each element is its `src` attribute
(`""` models a falsy attribute, skipped by `if (src)`).  Returns the new
`src` attributes together with the updated state. -/

/-- One iteration of the `script[src]` loop. -/
def processJSOne (net : Network) (baseUrl : String) (src : String) (st : CloneState) :
    String × CloneState :=
  if src = "" then (src, st)
  else
    let st := { st with totalAssets := st.totalAssets + 1 }
    match resolveUrl src baseUrl with
    | none =>
      -- `new URL(baseUrl)` threw inside the per-asset try/catch
      (src, { st with failedDownloads := st.failedDownloads + 1,
                      failedAssets := st.failedAssets ++ [⟨"js", src, "Invalid base URL"⟩] })
    | some absoluteUrl =>
      let (now, st) := takeTime st
      let fileName := generateFileName src "js" now
      let localPath := "js/" ++ fileName
      match downloadAsset net absoluteUrl localPath st with
      | (Except.ok _, st) =>
        (localPath, { st with successfulDownloads := st.successfulDownloads + 1 })
      | (Except.error m, st) =>
        (src, { st with failedDownloads := st.failedDownloads + 1,
                        failedAssets := st.failedAssets ++ [⟨"js", src, m⟩] })

def processEnhancedJSAssets (net : Network) (baseUrl : String) :
    List String → CloneState → List String × CloneState
  | [], st => ([], st)
  | src :: rest, st =>
    let (src', st) := processJSOne net baseUrl src st
    let (rest', st) := processEnhancedJSAssets net baseUrl rest st
    (src' :: rest', st)

/-! ## `processEnhancedImageAssets` (source lines 920-973) -/

/-- The caller-supplied identity record (`hotelData`).  The source treats a
missing field and `""` identically (JS falsiness), so `""` models absence. -/
structure HotelData where
  name : String := ""
  address : String := ""
  phone : String := ""
  email : String := ""
  description : String := ""
  logo : String := ""
deriving Repr, DecidableEq

/-- An `img[src]` element with the attributes the sweep reads, plus the
result of the ancestor query
`img.parents('header, nav, .logo, .brand, .navbar, [class*="logo"], [id*="logo"]')`. -/
structure ImgEl where
  src : String := ""
  alt : String := ""
  className : String := ""
  id : String := ""
  dataIsLogo : Bool := false
  inLogoContainer : Bool := false
  dataDownloadError : Option String := none
deriving Repr, DecidableEq

/-- The "aggressive logo detection" disjunction (source lines 929-931). -/
def isLogoImg (img : ImgEl) : Bool :=
  img.dataIsLogo || ciIncludes img.src "logo" || ciIncludes img.alt "logo" ||
  ciIncludes img.className "logo" || ciIncludes img.id "logo" || img.inLogoContainer

/-- The filesystem copy of the caller-supplied logo (`fs.copy`): `none` is
success, `some msg` a failure with `error.message = msg`. -/
def FsCopy : Type := String → Option String

/-- One iteration of the `img[src]` loop.  The logo branch copies the new
logo instead of downloading (note: no `totalAssets` increment), and on copy
failure rewrites `src` to `http://localhost:5000` + logo path.  The non-logo
branch downloads with the original URL kept on failure. -/
def processImgOne (net : Network) (fsCopy : FsCopy) (baseUrl : String) (hd : HotelData)
    (img : ImgEl) (st : CloneState) : ImgEl × CloneState :=
  if img.src = "" then (img, st)
  else if isLogoImg img ∧ hd.logo ≠ "" then
    let logoFileName := String.mk (basenameOf hd.logo.toList)
    match fsCopy hd.logo with
    | none =>
      ({ img with src := "images/" ++ logoFileName, alt := hd.name ++ " logo" },
       { st with filesWritten := st.filesWritten ++ ["images/" ++ logoFileName],
                 successfulDownloads := st.successfulDownloads + 1 })
    | some m =>
      ({ img with src := "http://localhost:5000" ++ hd.logo },
       { st with failedDownloads := st.failedDownloads + 1,
                 failedAssets := st.failedAssets ++ [⟨"logo", hd.logo, m⟩] })
  else
    let st := { st with totalAssets := st.totalAssets + 1 }
    match resolveUrl img.src baseUrl with
    | none =>
      ({ img with dataDownloadError := some "Invalid base URL" },
       { st with failedDownloads := st.failedDownloads + 1,
                 failedAssets := st.failedAssets ++ [⟨"image", img.src, "Invalid base URL"⟩] })
    | some absoluteUrl =>
      let (now, st) := takeTime st
      let fileName := generateFileName img.src "img" now
      let localPath := "images/" ++ fileName
      match downloadAsset net absoluteUrl localPath st with
      | (Except.ok _, st) =>
        ({ img with src := localPath },
         { st with successfulDownloads := st.successfulDownloads + 1 })
      | (Except.error m, st) =>
        ({ img with dataDownloadError := some m },
         { st with failedDownloads := st.failedDownloads + 1,
                   failedAssets := st.failedAssets ++ [⟨"image", img.src, m⟩] })

def processEnhancedImageAssets (net : Network) (fsCopy : FsCopy) (baseUrl : String)
    (hd : HotelData) : List ImgEl → CloneState → List ImgEl × CloneState
  | [], st => ([], st)
  | img :: rest, st =>
    let (img', st) := processImgOne net fsCopy baseUrl hd img st
    let (rest', st) := processEnhancedImageAssets net fsCopy baseUrl hd rest st
    (img' :: rest', st)

/-! ## `processPictureElements` (source lines 1099-1165)

Only the pieces the claims need: a `<picture>` holds `source[srcset]`
elements and optionally an inner `<img src>`.  For each `srcset` the loop
downloads every URL, incrementing `successfulDownloads` once per URL with
**no** `totalAssets` increment, then rewrites the `srcset` with *freshly
generated* file names (a second `Date.now()` per URL). -/

/-- JS `String.prototype.trim` on lists. -/
def jsTrim (s : List Char) : List Char :=
  ((s.dropWhile Char.isWhitespace).reverse.dropWhile Char.isWhitespace).reverse

/-- `srcset.split(',').map(s => s.trim().split(' ')[0])`. -/
def srcsetUrlsOf (srcset : String) : List String :=
  (splitChar ',' srcset.toList).map
    (fun s => String.mk ((jsTrim s).takeWhile (fun c => c ≠ ' ')))

/-- The download loop over one `srcset`'s URLs (inside the `try`): stops at
the first failure, counting one success per downloaded URL. -/
def downloadSrcsetUrls (net : Network) (baseUrl : String) :
    List String → CloneState → Except String Unit × CloneState
  | [], st => (Except.ok (), st)
  | url :: rest, st =>
    match resolveUrl url baseUrl with
    | none => (Except.error "Invalid base URL", st)
    | some absoluteUrl =>
      let (now, st) := takeTime st
      let fileName := generateFileName url "img" now
      let localPath := "images/" ++ fileName
      match downloadAsset net absoluteUrl localPath st with
      | (Except.error m, st) => (Except.error m, st)
      | (Except.ok _, st) =>
        let st := { st with successfulDownloads := st.successfulDownloads + 1 }
        downloadSrcsetUrls net baseUrl rest st

/-- The `newSrcset` rewrite (source lines 1128-1131): fresh
`generateFileName` calls, i.e. fresh timestamps. -/
def rewriteSrcset (urls : List String) (st : CloneState) : String × CloneState :=
  match urls with
  | [] => ("", st)
  | [url] =>
    let (now, st) := takeTime st
    ("images/" ++ generateFileName url "img" now, st)
  | url :: rest =>
    let (now, st) := takeTime st
    let (restStr, st) := rewriteSrcset rest st
    ("images/" ++ generateFileName url "img" now ++ ", " ++ restStr, st)

/-- One `source[srcset]` element of a `<picture>`. -/
def processSrcsetOne (net : Network) (baseUrl : String) (srcset : String) (st : CloneState) :
    String × CloneState :=
  if srcset = "" then (srcset, st)
  else
    let srcsetUrls := srcsetUrlsOf srcset
    match downloadSrcsetUrls net baseUrl srcsetUrls st with
    | (Except.ok _, st) =>
      let (newSrcset, st) := rewriteSrcset srcsetUrls st
      (newSrcset, st)
    | (Except.error m, st) =>
      (srcset, { st with failedDownloads := st.failedDownloads + 1,
                         failedAssets := st.failedAssets ++ [⟨"picture-source", srcset, m⟩] })

structure PictureEl where
  sources : List String := []
  imgSrc : String := ""
deriving Repr, DecidableEq

def processSrcsetList (net : Network) (baseUrl : String) :
    List String → CloneState → List String × CloneState
  | [], st => ([], st)
  | s :: rest, st =>
    let (s', st) := processSrcsetOne net baseUrl s st
    let (rest', st) := processSrcsetList net baseUrl rest st
    (s' :: rest', st)

/-- The inner `<img>` of a `<picture>` (source lines 1143-1162): a counted
download like the main image sweep, failure type `picture-img`. -/
def processPictureImg (net : Network) (baseUrl : String) (src : String) (st : CloneState) :
    String × CloneState :=
  if src = "" then (src, st)
  else
    let st := { st with totalAssets := st.totalAssets + 1 }
    match resolveUrl src baseUrl with
    | none =>
      (src, { st with failedDownloads := st.failedDownloads + 1,
                      failedAssets := st.failedAssets ++ [⟨"picture-img", src, "Invalid base URL"⟩] })
    | some absoluteUrl =>
      let (now, st) := takeTime st
      let fileName := generateFileName src "img" now
      let localPath := "images/" ++ fileName
      match downloadAsset net absoluteUrl localPath st with
      | (Except.ok _, st) =>
        (localPath, { st with successfulDownloads := st.successfulDownloads + 1 })
      | (Except.error m, st) =>
        (src, { st with failedDownloads := st.failedDownloads + 1,
                        failedAssets := st.failedAssets ++ [⟨"picture-img", src, m⟩] })

def processPictureOne (net : Network) (baseUrl : String) (pic : PictureEl) (st : CloneState) :
    PictureEl × CloneState :=
  let (sources', st) := processSrcsetList net baseUrl pic.sources st
  let (imgSrc', st) := processPictureImg net baseUrl pic.imgSrc st
  ({ sources := sources', imgSrc := imgSrc' }, st)

def processPictureElements (net : Network) (baseUrl : String) :
    List PictureEl → CloneState → List PictureEl × CloneState
  | [], st => ([], st)
  | pic :: rest, st =>
    let (pic', st) := processPictureOne net baseUrl pic st
    let (rest', st) := processPictureElements net baseUrl rest st
    (pic' :: rest', st)

/-- The success rate computed in `cloneSite` (source lines 115-117), as an
exact rational before `toFixed(2)` formatting. -/
def successRateQ (st : CloneState) : ℚ :=
  if 0 < st.totalAssets then (st.successfulDownloads * 100 : ℚ) / st.totalAssets else 0



/-! ## A tiny matcher framework for the source's replacement regexes

`injectHotelData` builds its replacement patterns with `new RegExp(...)`
from escaped literals, so every pattern the claims touch is a combination
of literal text, whitespace/separator runs, keyword alternations, bounded
character-class repetitions and `\b` word boundaries.  Each pattern is
embedded as a `Matcher`: given the character immediately before the current
position (`none` at the start of the text) and the remaining text, it
returns the length of the (unique, leftmost/greedy) match at this position.
`replaceAllMatches`/`matchAllMatches` then implement the JS global
`replace`/`match` scan: try each position left to right, resume after a
match. -/

def Matcher : Type := Option Char → List Char → Option Nat

/-- JS `\w` — `[A-Za-z0-9_]`. -/
def isWordChar (c : Char) : Bool := c.isAlphanum || c = '_'

def wordOpt : Option Char → Bool
  | none => false
  | some c => isWordChar c

/-- JS `\b`: the two sides differ in word-character-ness (text edges count
as non-word). -/
def isBoundary (prev next : Option Char) : Bool := wordOpt prev != wordOpt next

/-- Case-insensitive literal prefix test (an `i`-flagged escaped literal). -/
def ciStarts (pat s : List Char) : Bool :=
  (pat.map Char.toLower).isPrefixOf (s.map Char.toLower)

/-- Case-insensitive literal substring test. -/
def ciInfix (pat s : List Char) : Bool :=
  listInfix (pat.map Char.toLower) (s.map Char.toLower)

/-- Global regex replace: scan left to right, replace each match, resume
after it (fuel = one unit per position, `text.length + 1` at the top). -/
def replaceAllAux (m : Matcher) (repl : List Char) : Nat → Option Char → List Char → List Char
  | 0, _, s => s
  | _ + 1, _, [] => []
  | fuel + 1, prev, c :: rest =>
    match m prev (c :: rest) with
    | some (n + 1) =>
      repl ++ replaceAllAux m repl fuel (some ((c :: rest).getD n c)) ((c :: rest).drop (n + 1))
    | _ => c :: replaceAllAux m repl fuel (some c) rest

def replaceAllMatches (m : Matcher) (repl s : List Char) : List Char :=
  replaceAllAux m repl (s.length + 1) none s

/-- Global regex match: the list of matched substrings, in order. -/
def matchAllAux (m : Matcher) : Nat → Option Char → List Char → List (List Char)
  | 0, _, _ => []
  | _ + 1, _, [] => []
  | fuel + 1, prev, c :: rest =>
    match m prev (c :: rest) with
    | some (n + 1) =>
      (c :: rest).take (n + 1)
        :: matchAllAux m fuel (some ((c :: rest).getD n c)) ((c :: rest).drop (n + 1))
    | _ => matchAllAux m fuel (some c) rest

def matchAllMatches (m : Matcher) (s : List Char) : List (List Char) :=
  matchAllAux m (s.length + 1) none s

/-- `text.replace(plainString, repl)` — first occurrence, case-sensitive. -/
def replaceFirstLit (pat repl : List Char) : List Char → List Char
  | [] => if pat = [] then repl else []
  | c :: rest =>
    if pat.isPrefixOf (c :: rest) then repl ++ (c :: rest).drop pat.length
    else c :: replaceFirstLit pat repl rest

/-- Matcher for an `i`-flagged escaped literal (no anchors). -/
def ciLitMatcher (pat : List Char) : Matcher := fun _ s =>
  if pat ≠ [] ∧ ciStarts pat s then some pat.length else none

/-! ## The name pattern of `smartRegex` (source lines 1626-1630)

`base = escapeRegExp(str.replace(/Hotel|Otel/i, '').trim())` and the
pattern is ``\b`base`\s*(Hotel|Otel)?\b`` with flags `gi`.  Since
`escapeRegExp` turns `base` into a literal, the matcher is: word boundary,
the literal `base` (case-insensitive), a greedy run of whitespace, an
optional `Hotel`/`Otel`, and a word boundary — with the regex backtracking
order (longest whitespace run first; `Hotel`, then `Otel`, then the empty
option).  An empty `base` is not modelled (no claim exercises it). -/

/-- `str.replace(/Hotel|Otel/i, '')`: remove the first case-insensitive
`Hotel` (or, failing that at each position, `Otel`). -/
def removeFirstHotelOtel : List Char → List Char
  | [] => []
  | c :: rest =>
    if ciStarts "Hotel".toList (c :: rest) then (c :: rest).drop 5
    else if ciStarts "Otel".toList (c :: rest) then (c :: rest).drop 4
    else c :: removeFirstHotelOtel rest

/-- The literal core of the name pattern. -/
def nameBase (s : List Char) : List Char := jsTrim (removeFirstHotelOtel s)

/-- Try `(Hotel|Otel)?\b` at offset `pos` of the candidate match whose text
from that offset is `t`; `prevC` is the character just before offset `pos`. -/
def nameSuffix (pos : Nat) (prevC : Option Char) (t : List Char) : Option Nat :=
  if ciStarts "Hotel".toList t ∧ isBoundary (t.get? 4) (t.drop 5).head? then some (pos + 5)
  else if ciStarts "Otel".toList t ∧ isBoundary (t.get? 3) (t.drop 4).head? then some (pos + 4)
  else if isBoundary prevC t.head? then some pos
  else none

def prevCharAt (s : List Char) (pos : Nat) : Option Char :=
  if pos = 0 then none else s.get? (pos - 1)

/-- Backtrack the greedy `\s*` from `k` spaces down to none. -/
def nameTryK (base s : List Char) : Nat → Option Nat
  | 0 => nameSuffix base.length (prevCharAt s base.length) (s.drop base.length)
  | k + 1 =>
    match nameSuffix (base.length + (k + 1)) (prevCharAt s (base.length + (k + 1)))
        (s.drop (base.length + (k + 1))) with
    | some r => some r
    | none => nameTryK base s k

/-- The full name matcher ``\b`base`\s*(Hotel|Otel)?\b`` (flags `gi`). -/
def nameMatcher (base : List Char) : Matcher := fun prev s =>
  if base = [] then none
  else if ¬ isBoundary prev s.head? then none
  else if ciStarts base s then
    nameTryK base s (countLeading Char.isWhitespace (s.drop base.length))
  else none

/-- The name replacement applied to one text node (source line 1940):
`text.replace(nameRegex, hotelData.name)` with `nameRegex =
smartRegex(oldName, 'name')`. -/
def replaceNameIn (oldName newName text : List Char) : List Char :=
  replaceAllMatches (nameMatcher (nameBase oldName)) newName text

/-- The text-node name pass of `injectHotelData` over a document's text
nodes (applied when `hotelData.name` and the detected `oldName` are both
non-empty). -/
def injectNameTextNodes (oldName newName : List Char) (textNodes : List (List Char)) :
    List (List Char) :=
  textNodes.map (replaceNameIn oldName newName)

/-! ## The address machinery of `injectHotelData` (source lines 1631-1690
and `replaceAddress`, lines 1842-1930) -/

/-- `str.replace(/\s+/g, ' ')`. -/
def collapseWsAux (prevWs : Bool) : List Char → List Char
  | [] => []
  | c :: rest =>
    if c.isWhitespace then
      if prevWs then collapseWsAux true rest else ' ' :: collapseWsAux true rest
    else c :: collapseWsAux false rest

/-- `str.replace(/\s+/g, ' ').trim()` — the `normalizedStr` of the full
address pattern.  (The source then escapes it and replaces `\s` escape
sequences by `\s+`; for an address containing no backslash, `escapeRegExp`
produces no `\s` sequence, so the "flexible" pattern is this literal.) -/
def normalizeWs (s : List Char) : List Char := jsTrim (collapseWsAux false s)

/-- Keyword alternation followed by `[^<\n\r]{5,100}` (greedy), flags `gi`:
the shape of the two keyword "address indicator" patterns.  A keyword whose
tail has fewer than 5 allowed characters backtracks to the next
alternative. -/
def notBreakChar (c : Char) : Bool := c ≠ '<' ∧ c ≠ '\n' ∧ c ≠ '\r'

def tryKws (kws : List (List Char)) (s : List Char) : Option Nat :=
  match kws with
  | [] => none
  | kw :: rest =>
    if ciStarts kw s then
      let v := countLeading notBreakChar (s.drop kw.length)
      if 5 ≤ v then some (kw.length + min v 100) else tryKws rest s
    else tryKws rest s

def kwMatcher (kws : List (List Char)) : Matcher := fun _ s => tryKws kws s

/-- `/(Mah\.|Sok\.|Cad\.|No:|Adres|Adresi)[^<\n\r]{5,100}/gi`. -/
def turkishIndicatorKws : List (List Char) :=
  ["Mah.", "Sok.", "Cad.", "No:", "Adres", "Adresi"].map String.toList

/-- `/(Street|Ave|Avenue|Blvd|Boulevard|Road|Lane|Drive|Way)[^<\n\r]{5,100}/gi`. -/
def englishIndicatorKws : List (List Char) :=
  ["Street", "Ave", "Avenue", "Blvd", "Boulevard", "Road", "Lane", "Drive", "Way"].map
    String.toList

/-- `/\d{5,}[^<\n\r]{5,100}/g`: a greedy digit run (backtracking as needed
so that at least five allowed characters follow). -/
def digitIndicatorMatcher : Matcher := fun _ s =>
  let d := countLeading Char.isDigit s
  let v := countLeading notBreakChar s
  if 5 ≤ d ∧ 10 ≤ v then
    let dtake := if d + 5 ≤ v then d else v - 5
    some (dtake + min (v - dtake) 100)
  else none

/-- `matches.reduce((a, b) => a.length > b.length ? a : b)`. -/
def largestOf (m : List Char) (ms : List (List Char)) : List Char :=
  ms.foldl (fun a b => if b.length < a.length then a else b) m

/-- `str.split(/[,\s]+/)` followed by `.filter(part => part.length > 2)`
(splitting at every separator character gives the same surviving parts as
splitting at separator runs, since the filter drops empty pieces). -/
def isSepChar (c : Char) : Bool := c = ',' || c.isWhitespace

def splitPred (p : Char → Bool) : List Char → List (List Char)
  | [] => [[]]
  | c :: rest =>
    match splitPred p rest with
    | [] => [[c]]
    | rs :: rss => if p c then [] :: rs :: rss else (c :: rs) :: rss

def addressParts (s : List Char) : List (List Char) :=
  (splitPred isSepChar s).filter (fun part => 2 < part.length)

/-- All windows of three consecutive parts (`slice(i, i + 3)` for each
valid `i`). -/
def triplesFrom : List (List Char) → List (List (List Char))
  | a :: b :: c :: rest => [a, b, c] :: triplesFrom (b :: c :: rest)
  | _ => []

/-- `[...new Set(patterns)]` — deduplicate preserving first occurrences. -/
def dedupKeep : List (List (List Char)) → List (List (List Char)) :=
  go []
where
  go (seen : List (List (List Char))) : List (List (List Char)) → List (List (List Char))
    | [] => []
    | x :: rest => if x ∈ seen then go seen rest else x :: go (x :: seen) rest

/-- The partial-pattern alternation of `smartRegex(str, 'address')` (source
lines 1648-1685), as part lists: first three parts, last three, a middle
window (when at least four parts), every consecutive triple; deduplicated.
With exactly two long parts, the single pair; with fewer, no pattern
(`partialRegex = null`). -/
def partialPatternsOf (parts : List (List Char)) : List (List (List Char)) :=
  if 3 ≤ parts.length then
    let patterns := [parts.take 3, parts.drop (parts.length - 3)]
    let patterns :=
      if 4 ≤ parts.length then
        patterns ++ [(parts.drop (parts.length / 2 - 1)).take 3]
      else patterns
    dedupKeep (patterns ++ triplesFrom parts)
  else if 2 ≤ parts.length then [parts]
  else []

/-- Match the parts of one alternative in sequence, each pair separated by
`\s*[,\s]*` (a greedy, possibly empty run of separator characters; parts
contain no separator character, so no backtracking arises). -/
def partSeq : List (List Char) → List Char → Option Nat
  | [], _ => some 0
  | [p], s => if ciStarts p s then some p.length else none
  | p :: q :: rest, s =>
    if ciStarts p s then
      let after := s.drop p.length
      let sep := countLeading isSepChar after
      match partSeq (q :: rest) (after.drop sep) with
      | some n => some (p.length + sep + n)
      | none => none
    else none

/-- ``\b(P1|P2|…)\b`` with flags `gi`: alternatives in order; an alternative
whose trailing `\b` fails falls through to the next. -/
def tryPatterns (pats : List (List (List Char))) (s : List Char) : Option Nat :=
  match pats with
  | [] => none
  | ps :: rest =>
    match partSeq ps s with
    | some n =>
      if isBoundary (s.get? (n - 1)) (s.drop n).head? then some n else tryPatterns rest s
    | none => tryPatterns rest s

def partialMatcher (pats : List (List (List Char))) : Matcher := fun prev s =>
  if ¬ isBoundary prev s.head? then none else tryPatterns pats s

/-- `matches.join(' ').length`. -/
def totalMatchLength (ms : List (List Char)) : Nat := (joinChar ' ' ms).length

/-- The "last resort" branch of `replaceAddress` (source lines 1913-1926):
guarded by a case-sensitive keyword `includes` check, it splits the text at
`[.!?]+`, keeps trimmed sentences longer than 10 characters, and replaces
the first sentence containing one of the keywords (case-insensitively) with
the new address.  `none` = the branch does not fire. -/
def lastResortKws : List (List Char) :=
  ["Mah.", "Sok.", "Cad.", "Street", "Ave", "Road", "No:"].map String.toList

def lastResortReplace (newAddress text : List Char) : Option (List Char) :=
  if 20 < text.length ∧
      (listInfix "Mah.".toList text ∨ listInfix "Sok.".toList text ∨
       listInfix "Cad.".toList text ∨ listInfix "Street".toList text ∨
       listInfix "Ave".toList text ∨ listInfix "Road".toList text) then
    let sentences := (splitPred (fun c => c = '.' ∨ c = '!' ∨ c = '?') text).filter
      (fun s => 10 < (jsTrim s).length)
    match sentences.find? (fun s => lastResortKws.any (fun kw => ciInfix kw s)) with
    | some sentence => some (replaceFirstLit sentence newAddress text)
    | none => none
  else none

/-- `replaceAddress(text, newAddress)` (source lines 1842-1930), with the
`addressRegex` built by `smartRegex(oldAddress, 'address')` supplied through
`oldAddress` (the guard `!addressRegex || !newAddress` is the first `if`).
Branch order as in the source: whole-address replace (returned only when it
changed the text), the three ungated "address indicator" replacements of the
largest match, the `≥30%`-coverage/`≥10`-character gated partial replace,
then the last-resort sentence replace; otherwise the text is unchanged.
The JS float comparison `(total / text.length) * 100 >= 30` is modelled
exactly on rationals as `30 * text.length ≤ 100 * total`. -/
def replaceAddress (oldAddress newAddress text : List Char) : List Char :=
  if oldAddress = [] ∨ newAddress = [] then text
  else
    let fullReplaced := replaceAllMatches (ciLitMatcher (normalizeWs oldAddress)) newAddress text
    if fullReplaced ≠ text then fullReplaced
    else match matchAllMatches (kwMatcher turkishIndicatorKws) text with
    | m :: ms => replaceFirstLit (largestOf m ms) newAddress text
    | [] =>
      match matchAllMatches (kwMatcher englishIndicatorKws) text with
      | m :: ms => replaceFirstLit (largestOf m ms) newAddress text
      | [] =>
        match matchAllMatches digitIndicatorMatcher text with
        | m :: ms => replaceFirstLit (largestOf m ms) newAddress text
        | [] =>
          let pats := partialPatternsOf (addressParts oldAddress)
          let afterPartial :=
            match pats, matchAllMatches (partialMatcher pats) text with
            | _ :: _, m :: ms =>
              let total := totalMatchLength (m :: ms)
              if 30 * text.length ≤ 100 * total ∧ 10 ≤ total then
                some (replaceAllMatches (partialMatcher pats) newAddress text)
              else none
            | _, _ => none
          match afterPartial with
          | some r => r
          | none =>
            match lastResortReplace newAddress text with
            | some r => r
            | none => text


/-! ## `createFallbackHTML` (source lines 2087-2148)

The synthesized placeholder page, as the exact template-literal text split
at its `${...}` interpolations.  `orDefault` embeds the JS `x || 'default'`
idiom (empty string is falsy). -/

def fbT0 : String :=
  "\n<!DOCTYPE html>\n<html lang=\"en\">\n<head>\n    <meta charset=\"UTF-8\">\n    <meta name=\"viewport\" content=\"width=device-width, initial-scale=1.0\">\n    <title>"

def fbT1 : String :=
  " - Cloned Website</title>\n    <style>\n        * \x7b margin: 0; padding: 0; box-sizing: border-box; \x7d\n        body \x7b font-family: Arial, sans-serif; line-height: 1.6; color: #333; \x7d\n        .container \x7b max-width: 1200px; margin: 0 auto; padding: 20px; \x7d\n        .header \x7b background: #2c3e50; color: white; padding: 2rem 0; text-align: center; \x7d\n        .hero \x7b background: #ecf0f1; padding: 4rem 0; text-align: center; \x7d\n        .content \x7b padding: 3rem 0; \x7d\n        .contact \x7b background: #34495e; color: white; padding: 2rem 0; text-align: center; \x7d\n        .btn \x7b display: inline-block; padding: 12px 24px; background: #3498db; color: white; text-decoration: none; border-radius: 4px; margin: 10px; \x7d\n        .btn:hover \x7b background: #2980b9; \x7d\n    </style>\n</head>\n<body>\n    <header class=\"header\">\n        <div class=\"container\">\n            <h1>"

def fbT2 : String :=
  "</h1>\n            <p>Welcome to our hotel</p>\n        </div>\n    </header>\n\n    <section class=\"hero\">\n        <div class=\"container\">\n            <h2>Welcome to "

def fbT3 : String :=
  "</h2>\n            <p>"

def fbT4 : String :=
  "</p>\n            <a href=\"#contact\" class=\"btn\">Book Now</a>\n            <a href=\"#contact\" class=\"btn\">Contact Us</a>\n        </div>\n    </section>\n\n    <section class=\"content\">\n        <div class=\"container\">\n            <h3>About Our Hotel</h3>\n            <p>"

def fbT5 : String :=
  "</p>\n            \n            <h3>Location</h3>\n            <p>"

def fbT6 : String :=
  "</p>\n        </div>\n    </section>\n\n    <section class=\"contact\" id=\"contact\">\n        <div class=\"container\">\n            <h3>Contact Information</h3>\n            <p>Phone: "

def fbT7 : String :=
  "</p>\n            <p>Email: "

def fbT8 : String :=
  "</p>\n            <p>Address: "

def fbT9 : String :=
  "</p>\n        </div>\n    </section>\n\n    <footer style=\"background: #2c3e50; color: white; text-align: center; padding: 1rem 0;\">\n        <p>&copy; 2024 "

def fbT10 : String :=
  ". All rights reserved.</p>\n    </footer>\n</body>\n</html>"

/-- JS `value || default` for strings. -/
def orDefault (s d : String) : String := if s = "" then d else s

def createFallbackHTML (hd : HotelData) : String :=
  fbT0 ++ orDefault hd.name "Hotel" ++
  fbT1 ++ orDefault hd.name "Hotel Name" ++
  fbT2 ++ orDefault hd.name "Our Hotel" ++
  fbT3 ++ orDefault hd.description "Experience luxury and comfort at our hotel." ++
  fbT4 ++ orDefault hd.description "We provide exceptional service and comfortable accommodations for our guests." ++
  fbT5 ++ orDefault hd.address "Hotel Address" ++
  fbT6 ++ orDefault hd.phone "Contact us" ++
  fbT7 ++ orDefault hd.email "info@hotel.com" ++
  fbT8 ++ orDefault hd.address "Hotel Address" ++
  fbT9 ++ orDefault hd.name "Hotel" ++
  fbT10

/-- `t` occurs as a contiguous substring of `s`. -/
def Occurs (t s : String) : Prop := ∃ x y, s = x ++ t ++ y

/-! ## Debug report finalization (`cloneSite` lines 53-59 and 112-117,
`generateDebugReports` lines 2212-2235)

`this.debugReport` is a plain object; its properties, in creation order, are
the six set by the reset at lines 53-59 (`totalAssets`,
`successfulDownloads`, `failedDownloads`, `errors`, `startTime`) and the
three added at lines 113-117 (`endTime`, `duration`, `successRate`).  The
failed-asset `{type, url, error}` list lives in the separate
`this.failedAssets` array (serialized by `generateDebugReports` under the
`failedAssets` key of `debug-report.json`, next to — not inside — the
`statistics` object). -/

def debugReportFieldNames : List String :=
  ["totalAssets", "successfulDownloads", "failedDownloads", "errors",
   "startTime", "endTime", "duration", "successRate"]

/-- `successRate` is a two-decimal percentage **string** when
`totalAssets > 0` (`.toFixed(2)`), and the **number** `0` otherwise. -/
inductive SuccessRateVal where
  | pct (s : String)
  | zeroNum
deriving Repr, DecidableEq

/-- Zero-padded two-digit rendering. -/
def pad2 (n : Nat) : List Char :=
  if n < 10 then '0' :: natChars n else natChars n

/-- `(successful / total * 100).toFixed(2)` — rounding the exact rational to
the nearest hundredth (half up; the claims are stated away from ties, where
IEEE-double rounding agrees). -/
def jsToFixed2 (successful total : Nat) : String :=
  let hundredths := (successful * 20000 + total) / (2 * total)
  String.mk (natChars (hundredths / 100) ++ '.' :: pad2 (hundredths % 100))

/-- Number of digits after the decimal point of a rendered rate. -/
def decimalsAfterPoint (s : String) : Nat :=
  (s.toList.reverse.takeWhile (fun c => c ≠ '.')).length

structure DebugReport where
  totalAssets : Nat
  successfulDownloads : Nat
  failedDownloads : Nat
  errors : List String
  startTime : Nat
  endTime : Nat
  duration : Nat
  successRate : SuccessRateVal
deriving Repr, DecidableEq

/-- The statistics object as `cloneSite` returns it (lines 112-117). -/
def finalizeDebugReport (st : CloneState) (startTime endTime : Nat) : DebugReport :=
  { totalAssets := st.totalAssets
    successfulDownloads := st.successfulDownloads
    failedDownloads := st.failedDownloads
    errors := []
    startTime := startTime
    endTime := endTime
    duration := endTime - startTime
    successRate :=
      if 0 < st.totalAssets then
        SuccessRateVal.pct (jsToFixed2 st.successfulDownloads st.totalAssets)
      else SuccessRateVal.zeroNum }

/-! ## The global clone timeout (source lines 42-48, 127, 143)

`cloneSite` opens with `setTimeout(() => { throw new Error('Clone process
timed out') }, 300000)` and clears the timer when the body finishes (either
path).  JS semantics of this construct: the callback runs on the event loop
with an **empty call stack**, so its `throw` cannot be caught by
`cloneSite`'s `try`/`catch` and does not reject the promise `cloneSite`
returned — in Node it surfaces as a process-level `uncaughtException`.
Nothing in the body observes the timer, so the caller-visible outcome is the
body's own outcome regardless of the timer. -/

structure CloneExecution where
  /-- what the `try` body itself produces (`outputDir` or a thrown message) -/
  bodyOutcome : Except String String
  /-- wall-clock time the body takes before reaching `clearTimeout` -/
  bodyDurationMs : Nat

def cloneTimeoutMs : Nat := 300000

/-- The timer fires iff the body has not cleared it within the delay. -/
def cloneTimerFires (e : CloneExecution) : Bool := cloneTimeoutMs < e.bodyDurationMs

/-- The outcome delivered to `cloneSite`'s caller: exactly the body's
outcome — the timer callback cannot alter it. -/
def cloneSiteCallerResult (e : CloneExecution) : Except String String := e.bodyOutcome

/-- The exception the fired timer raises at the event-loop level. -/
def cloneSiteUncaught (e : CloneExecution) : Option String :=
  if cloneTimerFires e then some "Clone process timed out" else none


/-! ## `cloneSite` (source lines 42-153)

The orchestration: acquisition (`getEnhancedHTML`, whose outcome — `none`
when both the static fetch and the dynamic capture failed — is a parameter,
as is its cheerio parse `DocumentModel`), then for acquired markup the
injection pass followed by the asset sweeps, and for failed acquisition the
synthesized fallback page with injection and asset processing skipped and
the freshly reset counters left at zero.  `detectedOldName` carries the
result of the old-name detection chain (source lines 1764-1768) computed
from the document.  Serialization of a processed DOM and `cleanupHTML` are
modelled as the identity / not modelled (`finalHTML` is only produced on
the fallback path, whose template contains none of the escape artifacts
`cleanupHTML` rewrites and already begins with a doctype); no claim
concerns the serialized markup of a non-fallback clone. -/

structure DocumentModel where
  textNodes : List (List Char) := []
  detectedOldName : List Char := []
  scripts : List String := []
  images : List ImgEl := []
  pictures : List PictureEl := []
deriving Repr

structure CloneResult where
  outputDir : String
  isFallback : Bool
  finalHTML : String
  doc : DocumentModel
  stats : CloneState
deriving Repr

def cloneSite (acquired : Option DocumentModel) (hd : HotelData) (net : Network)
    (fsCopy : FsCopy) (pageUrl outputDir : String) (times : List Nat) :
    Except String CloneResult :=
  let st0 : CloneState := { times := times }
  match acquired with
  | none =>
    Except.ok { outputDir := outputDir, isFallback := true,
                finalHTML := createFallbackHTML hd, doc := {}, stats := st0 }
  | some doc =>
    let textNodes :=
      if hd.name ≠ "" ∧ doc.detectedOldName ≠ [] then
        injectNameTextNodes doc.detectedOldName hd.name.toList doc.textNodes
      else doc.textNodes
    let rs := processEnhancedJSAssets net pageUrl doc.scripts st0
    let ri := processEnhancedImageAssets net fsCopy pageUrl hd doc.images rs.2
    let rp := processPictureElements net pageUrl doc.pictures ri.2
    let doc2 : DocumentModel :=
      { doc with textNodes := textNodes, scripts := rs.1, images := ri.1, pictures := rp.1 }
    Except.ok { outputDir := outputDir, isFallback := false, finalHTML := "",
                doc := doc2, stats := rp.2 }

/-- A fetch that `downloadAsset` accepts: the request succeeded and the
response is not a disguised HTML error page. -/
def fetchOk (net : Network) (url : String) : Bool :=
  match net url with
  | FetchOutcome.ok contentType body => !(isHtmlResponse contentType && isErrorPage body)
  | FetchOutcome.err _ => false

/-! Per-element counter contributions of the sweeps (used to state the
counter-drift facts behind C10). -/

/-- Elements counted into `totalAssets` by the `script[src]` sweep. -/
def jsCount (srcs : List String) : Nat := (srcs.filter (fun s => s ≠ "")).length

/-- `totalAssets` contribution of one `img[src]` element: counted unless it
takes the logo branch. -/
def imgCountedOne (hd : HotelData) (i : ImgEl) : Nat :=
  if i.src ≠ "" ∧ ¬(isLogoImg i = true ∧ hd.logo ≠ "") then 1 else 0

/-- `successfulDownloads` contribution of one `img[src]` element when every
download and copy succeeds. -/
def imgSuccOne (i : ImgEl) : Nat := if i.src ≠ "" then 1 else 0

/-- `totalAssets` contribution of one `<picture>`: only its inner `<img>`. -/
def picCountedOne (p : PictureEl) : Nat := if p.imgSrc ≠ "" then 1 else 0

/-- `successfulDownloads` contribution of one `source[srcset]` when all its
URLs download: one per URL, with no `totalAssets` increment. -/
def srcsetSuccOne (s : String) : Nat := if s ≠ "" then (srcsetUrlsOf s).length else 0

/-- `successfulDownloads` contribution of one `<picture>` when everything
succeeds. -/
def picSuccOne (p : PictureEl) : Nat :=
  (p.sources.map srcsetSuccOne).sum + (if p.imgSrc ≠ "" then 1 else 0)

end WebsiteCloner

namespace WebsiteCloner

/-! ## Concrete runs used by the claim theorems -/

/-- A page with two `<script src="https://cdn.example.com/a.js">` tags, a
network that serves every asset, and `Date.now()` advancing by one
millisecond between the two generated file names. -/
def c1Run : List String × CloneState :=
  processEnhancedJSAssets (fun _ => FetchOutcome.ok "application/javascript" "data")
    "https://example.com/index.html"
    ["https://cdn.example.com/a.js", "https://cdn.example.com/a.js"]
    { times := [1000, 1001] }

/-- The same two-script page, for the dedup claim. -/
def c2Run : List String × CloneState :=
  processEnhancedJSAssets (fun _ => FetchOutcome.ok "application/javascript" "data")
    "https://example.com/index.html"
    ["https://cdn.example.com/a.js", "https://cdn.example.com/a.js"]
    { times := [2000, 2001] }

/-- A logo image whose `fs.copy` of the caller-supplied logo fails. -/
def c3Run : ImgEl × CloneState :=
  processImgOne (fun _ => FetchOutcome.err "unreachable")
    (fun _ => some "ENOENT: no such file or directory")
    "https://old-site.example/index.html"
    { name := "New Hotel", logo := "/uploads/new-logo.png" }
    { src := "https://old-site.example/img/logo.png" }
    {}

def c6Text : List Char :=
  "The quiet garden behind our small hotel gives guests a calm place to rest near Street corner".toList

def c6OldAddr : List Char := "12 Baker Rd, Springfield, USA".toList

def c6NewAddr : List Char := "742 Evergreen Terrace".toList

/-- A node where the partial pattern of `c6OldAddr` matches (21 of 115
characters, under the 30% gate) and no indicator or last-resort branch
fires. -/
def c6GateText : List Char :=
  ("our friends from Baker Springfield USA asked them for help with the booking"
    ++ " of rooms in the high season this summer").toList

def c8Stats : CloneState :=
  { totalAssets := 3, successfulDownloads := 2, failedDownloads := 1 }

/-! ## Claim theorems -/

/-- C1: the spec's bundle invariant — every asset reference remaining in
the final markup points to a file present in the bundle or to the original
remote URL — is violated by the code: when a second element references a
URL already in the downloaded set, `downloadAsset` returns without writing
the freshly generated (timestamp-suffixed) local path, yet the element's
attribute is still rewritten to that path.  In the two-script run the
second reference is rewritten to `js/a-1001.js`, a local path at which no
file was ever written (only `js/a-1000.js` exists in the bundle). -/
theorem c1_duplicate_reference_dangles :
    c1Run.1 = ["js/a-1000.js", "js/a-1001.js"] ∧
    c1Run.2.filesWritten = ["js/a-1000.js"] ∧
    "js/a-1001.js" ∉ c1Run.2.filesWritten := by
  refine ⟨rfl, rfl, ?_⟩
  decide

/-- C2 counterexample: with the identical URL referenced twice, the asset
is fetched once (the fetch log has a single entry), but the two references
are rewritten to *different* local paths, because `generateFileName`
embeds `Date.now()` — the generated name is not a function of the source
URL alone. -/
theorem c2_duplicate_reference_paths_differ :
    c2Run.2.fetchLog = ["https://cdn.example.com/a.js"] ∧
    c2Run.1 = ["js/a-2000.js", "js/a-2001.js"] ∧
    c2Run.1.getD 0 "" ≠ c2Run.1.getD 1 "" := by
  refine ⟨rfl, rfl, ?_⟩
  decide

/-- C3 counterexample: in the logo branch of `processEnhancedImageAssets`,
a failed `fs.copy` of the caller-supplied logo *rewrites* the referencing
`src` attribute to `http://localhost:5000` + logo path instead of leaving
it unchanged, while recording a `{type, url, error}` failure entry. -/
theorem c3_logo_copy_failure_rewrites_src :
    c3Run.1.src = "http://localhost:5000/uploads/new-logo.png" ∧
    c3Run.1.src ≠ "https://old-site.example/img/logo.png" ∧
    c3Run.2.failedAssets
      = [⟨"logo", "/uploads/new-logo.png", "ENOENT: no such file or directory"⟩] := by
  refine ⟨rfl, ?_, rfl⟩
  decide

/-- C4: resolving `../img/bg.jpg` against
`https://example.com/assets/css/style.css` must (per the spec's scenario 3)
yield `https://example.com/assets/img/bg.jpg`; the code instead drops only
one trailing segment — the file name — and returns
`https://example.com/assets/css/img/bg.jpg`.  Moreover a plain relative
reference (zero leading `../`) drops the *entire* base path
(`slice(0, -0)` = `slice(0, 0)`), not zero segments. -/
theorem c4_resolveUrl_drops_wrong_segment :
    resolveUrl "../img/bg.jpg" "https://example.com/assets/css/style.css"
      = some "https://example.com/assets/css/img/bg.jpg" ∧
    resolveUrl "../img/bg.jpg" "https://example.com/assets/css/style.css"
      ≠ some "https://example.com/assets/img/bg.jpg" ∧
    resolveUrl "logo.png" "https://example.com/deep/nested/page.html"
      = some "https://example.com/logo.png" := by
  refine ⟨rfl, ?_, rfl⟩
  decide

/-- C6 counterexample: `replaceAddress` alters a text node through the
*ungated* "address indicator" branch: the matched span (`Street corner`,
13 characters) covers under 30% of the 93-character node, no whole-address
match exists (the full-pattern replace is a no-op) and the gated
partial pattern does not match at all — yet the node is rewritten. -/
theorem c6_ungated_indicator_replacement :
    replaceAddress c6OldAddr c6NewAddr c6Text
      = ("The quiet garden behind our small hotel gives guests a calm place to rest near "
          ++ "742 Evergreen Terrace").toList ∧
    replaceAddress c6OldAddr c6NewAddr c6Text ≠ c6Text ∧
    replaceAllMatches (ciLitMatcher (normalizeWs c6OldAddr)) c6NewAddr c6Text = c6Text ∧
    matchAllMatches (partialMatcher (partialPatternsOf (addressParts c6OldAddr))) c6Text = [] ∧
    (matchAllMatches (kwMatcher englishIndicatorKws) c6Text).map List.length = [13] ∧
    13 * 100 < 30 * c6Text.length := by
  set_option maxRecDepth 100000 in
  refine ⟨rfl, ?_, rfl, rfl, rfl, ?_⟩ <;> decide

/-- C7: the global five-minute ceiling is implemented as a `setTimeout`
callback that `throw`s; the exception is raised on an empty call stack, so
it neither aborts the running clone nor surfaces a timeout failure to the
caller — the caller-visible outcome is the body's own outcome, and the
timeout error becomes a process-level uncaught exception instead. -/
theorem c7_timeout_not_surfaced_to_caller (e : CloneExecution)
    (h : cloneTimerFires e = true) :
    cloneSiteCallerResult e = e.bodyOutcome ∧
    cloneSiteUncaught e = some "Clone process timed out" := by
  exact ⟨rfl, by simp [cloneSiteUncaught, h]⟩

theorem c7_timeout_not_surfaced_to_caller_witness :
    cloneTimerFires ⟨Except.ok "site-dir", 300001⟩ = true ∧
    (cloneSiteCallerResult ⟨Except.ok "site-dir", 300001⟩ = Except.ok "site-dir" ∧
     cloneSiteUncaught ⟨Except.ok "site-dir", 300001⟩ = some "Clone process timed out") :=
  ⟨by decide, c7_timeout_not_surfaced_to_caller ⟨Except.ok "site-dir", 300001⟩ (by decide)⟩

/-- C8 counterexample: the report's success rate is rendered by
`.toFixed(2)` — two decimal places, not one (`2 / 3` assets →
`"66.67"`) — the duration field is named `duration`, not `durationMs`,
and the statistics object carries the extra fields `errors`, `startTime`
and `endTime`. -/
theorem c8_report_shape_counterexample :
    (finalizeDebugReport c8Stats 100 350).successRate = SuccessRateVal.pct "66.67" ∧
    decimalsAfterPoint "66.67" = 2 ∧
    (finalizeDebugReport c8Stats 100 350).duration = 250 ∧
    "durationMs" ∉ debugReportFieldNames ∧
    "errors" ∈ debugReportFieldNames ∧
    "startTime" ∈ debugReportFieldNames ∧
    "duration" ∈ debugReportFieldNames := by
  refine ⟨rfl, rfl, rfl, ?_, ?_, ?_, ?_⟩ <;> decide

/-- C9 counterexample: identity injection is not idempotent.  With
`newIdentity.name = "Hotel California"` and the second run re-detecting the
same (already correct) name, the name pattern strips the leading
`Hotel`, matches the bare `California` inside the already-correct text and
rewrites it to the full name: `Hotel California` becomes
`Hotel Hotel California`. -/
theorem c9_reinjection_duplicates_leading_keyword_name :
    injectNameTextNodes "Hotel California".toList "Hotel California".toList
        ["Hotel California".toList]
      = ["Hotel Hotel California".toList] ∧
    injectNameTextNodes "Hotel California".toList "Hotel California".toList
        ["Hotel California".toList]
      ≠ ["Hotel California".toList] := by
  refine ⟨rfl, ?_⟩
  decide

/-- C2 amended: with two elements referencing an identical URL whose fetch
succeeds, the asset is fetched exactly once (one fetch-log entry), each
reference is rewritten to the file name generated with its own `Date.now()`
value, and the two rewritten references agree exactly when those timestamps
coincide. -/
theorem c2_dedup_single_fetch (net : Network) (baseUrl src absUrl : String) (t1 t2 : Nat)
    (hsrc : src ≠ "") (hres : resolveUrl src baseUrl = some absUrl)
    (hok : fetchOk net absUrl = true) :
    (processEnhancedJSAssets net baseUrl [src, src] { times := [t1, t2] }).2.fetchLog
      = [absUrl] ∧
    (processEnhancedJSAssets net baseUrl [src, src] { times := [t1, t2] }).1
      = ["js/" ++ generateFileName src "js" t1, "js/" ++ generateFileName src "js" t2] ∧
    (t1 = t2 →
      (processEnhancedJSAssets net baseUrl [src, src] { times := [t1, t2] }).1
        = ["js/" ++ generateFileName src "js" t1, "js/" ++ generateFileName src "js" t1]) := by
  obtain ⟨ct, body, hnet, hcond⟩ :
      ∃ ct body, net absUrl = FetchOutcome.ok ct body ∧
        (isHtmlResponse ct && isErrorPage body) = false := by
    cases hnet : net absUrl with
    | ok ct body =>
      refine ⟨ct, body, rfl, ?_⟩
      have h2 := hok
      unfold fetchOk at h2
      rw [hnet] at h2
      have h3 : (!(isHtmlResponse ct && isErrorPage body)) = true := h2
      cases hb : isHtmlResponse ct && isErrorPage body with
      | false => rfl
      | true => rw [hb] at h3; simp at h3
    | err m =>
      have h2 := hok
      unfold fetchOk at h2
      rw [hnet] at h2
      exact absurd h2 (by simp)
  have run : processEnhancedJSAssets net baseUrl [src, src] { times := [t1, t2] }
      = (["js/" ++ generateFileName src "js" t1, "js/" ++ generateFileName src "js" t2],
         { downloadedAssets := [absUrl],
           filesWritten := ["js/" ++ generateFileName src "js" t1],
           fetchLog := [absUrl], totalAssets := 2, successfulDownloads := 2,
           failedDownloads := 0, failedAssets := [], times := [] }) := by
    simp [processEnhancedJSAssets, processJSOne, takeTime, downloadAsset,
      hres, hsrc, hnet, hcond]
  refine ⟨?_, ?_, ?_⟩
  · rw [run]
  · rw [run]
  · intro h
    subst h
    rw [run]

theorem c2_dedup_single_fetch_witness :
    (("https://cdn.example.com/a.js" : String) ≠ "" ∧
     resolveUrl "https://cdn.example.com/a.js" "https://example.com/index.html"
       = some "https://cdn.example.com/a.js" ∧
     fetchOk (fun _ => FetchOutcome.ok "application/javascript" "data")
       "https://cdn.example.com/a.js" = true) ∧
    ((processEnhancedJSAssets (fun _ => FetchOutcome.ok "application/javascript" "data")
        "https://example.com/index.html"
        ["https://cdn.example.com/a.js", "https://cdn.example.com/a.js"]
        { times := [7, 7] }).2.fetchLog = ["https://cdn.example.com/a.js"] ∧
     (processEnhancedJSAssets (fun _ => FetchOutcome.ok "application/javascript" "data")
        "https://example.com/index.html"
        ["https://cdn.example.com/a.js", "https://cdn.example.com/a.js"]
        { times := [7, 7] }).1
       = ["js/" ++ generateFileName "https://cdn.example.com/a.js" "js" 7,
          "js/" ++ generateFileName "https://cdn.example.com/a.js" "js" 7] ∧
     (7 = 7 →
       (processEnhancedJSAssets (fun _ => FetchOutcome.ok "application/javascript" "data")
          "https://example.com/index.html"
          ["https://cdn.example.com/a.js", "https://cdn.example.com/a.js"]
          { times := [7, 7] }).1
         = ["js/" ++ generateFileName "https://cdn.example.com/a.js" "js" 7,
            "js/" ++ generateFileName "https://cdn.example.com/a.js" "js" 7])) :=
  ⟨⟨by decide, by rfl, by rfl⟩,
   c2_dedup_single_fetch (fun _ => FetchOutcome.ok "application/javascript" "data")
     "https://example.com/index.html" "https://cdn.example.com/a.js"
     "https://cdn.example.com/a.js" 7 7 (by decide) (by rfl) (by rfl)⟩

/-- C3 amended (download branch): for a non-logo image whose download
fails, the `src` attribute is left at its pre-clone value, the asset is
counted, `failedDownloads` is incremented and a `{type, url, error}` entry
is appended — the per-asset `try`/`catch` returns normally, never aborting
the sweep. -/
theorem c3_failed_download_preserves_reference (net : Network) (fsCopy : FsCopy)
    (baseUrl : String) (hd : HotelData) (img : ImgEl) (st : CloneState) (absUrl : String)
    (hsrc : img.src ≠ "")
    (hnotlogo : ¬(isLogoImg img = true ∧ hd.logo ≠ ""))
    (hres : resolveUrl img.src baseUrl = some absUrl)
    (hnew : absUrl ∉ st.downloadedAssets)
    (hfail : fetchOk net absUrl = false) :
    ∃ msg,
      (processImgOne net fsCopy baseUrl hd img st).1.src = img.src ∧
      (processImgOne net fsCopy baseUrl hd img st).2.totalAssets = st.totalAssets + 1 ∧
      (processImgOne net fsCopy baseUrl hd img st).2.failedDownloads
        = st.failedDownloads + 1 ∧
      (processImgOne net fsCopy baseUrl hd img st).2.failedAssets
        = st.failedAssets ++ [⟨"image", img.src, msg⟩] := by
  cases hnet : net absUrl with
  | ok ct body =>
    have hcond : (isHtmlResponse ct && isErrorPage body) = true := by
      have h1 := hfail
      unfold fetchOk at h1
      rw [hnet] at h1
      have h3 : (!(isHtmlResponse ct && isErrorPage body)) = false := h1
      cases hb : isHtmlResponse ct && isErrorPage body with
      | false => rw [hb] at h3; simp at h3
      | true => rfl
    refine ⟨"Server returned HTML error page instead of asset. Content-Type: " ++ ct,
      ?_, ?_, ?_, ?_⟩ <;>
      simp [processImgOne, takeTime, downloadAsset, hsrc, hnotlogo, hres, hnew, hnet, hcond]
  | err m =>
    refine ⟨m, ?_, ?_, ?_, ?_⟩ <;>
      simp [processImgOne, takeTime, downloadAsset, hsrc, hnotlogo, hres, hnew, hnet]

theorem c3_failed_download_preserves_reference_witness :
    (("https://site.example/a.png" : String) ≠ "" ∧
     ¬(isLogoImg { src := "https://site.example/a.png" } = true ∧
        ({} : HotelData).logo ≠ "") ∧
     resolveUrl "https://site.example/a.png" "https://site.example/index.html"
       = some "https://site.example/a.png" ∧
     "https://site.example/a.png" ∉ (({} : CloneState)).downloadedAssets ∧
     fetchOk (fun _ => FetchOutcome.err "timeout of 15000ms exceeded")
       "https://site.example/a.png" = false) ∧
    (∃ msg,
      (processImgOne (fun _ => FetchOutcome.err "timeout of 15000ms exceeded")
          (fun _ => none) "https://site.example/index.html" {}
          { src := "https://site.example/a.png" } {}).1.src
        = "https://site.example/a.png" ∧
      (processImgOne (fun _ => FetchOutcome.err "timeout of 15000ms exceeded")
          (fun _ => none) "https://site.example/index.html" {}
          { src := "https://site.example/a.png" } {}).2.totalAssets
        = ({} : CloneState).totalAssets + 1 ∧
      (processImgOne (fun _ => FetchOutcome.err "timeout of 15000ms exceeded")
          (fun _ => none) "https://site.example/index.html" {}
          { src := "https://site.example/a.png" } {}).2.failedDownloads
        = ({} : CloneState).failedDownloads + 1 ∧
      (processImgOne (fun _ => FetchOutcome.err "timeout of 15000ms exceeded")
          (fun _ => none) "https://site.example/index.html" {}
          { src := "https://site.example/a.png" } {}).2.failedAssets
        = ({} : CloneState).failedAssets ++ [⟨"image", "https://site.example/a.png", msg⟩]) :=
  ⟨⟨by decide, by decide, by rfl, by decide, by rfl⟩,
   c3_failed_download_preserves_reference
     (fun _ => FetchOutcome.err "timeout of 15000ms exceeded") (fun _ => none)
     "https://site.example/index.html" {} { src := "https://site.example/a.png" } {}
     "https://site.example/a.png" (by decide) (by decide) (by rfl) (by decide) (by rfl)⟩

/-- C5: when both static and dynamic capture fail (`getEnhancedHTML`
returned `null`), `cloneSite` still completes with a normal result: a
fallback clone whose synthesized page contains the supplied identity's
name, address, phone and email, with `totalAssets = 0` and a success rate
of `0`. -/
theorem c5_fallback_clone_completes (hd : HotelData) (net : Network) (fsCopy : FsCopy)
    (pageUrl outputDir : String) (times : List Nat)
    (hname : hd.name ≠ "") (haddr : hd.address ≠ "")
    (hphone : hd.phone ≠ "") (hemail : hd.email ≠ "") :
    ∃ r, cloneSite none hd net fsCopy pageUrl outputDir times = Except.ok r ∧
      r.isFallback = true ∧ r.stats.totalAssets = 0 ∧ successRateQ r.stats = 0 ∧
      Occurs hd.name r.finalHTML ∧ Occurs hd.address r.finalHTML ∧
      Occurs hd.phone r.finalHTML ∧ Occurs hd.email r.finalHTML := by
  refine ⟨{ outputDir := outputDir, isFallback := true,
            finalHTML := createFallbackHTML hd, doc := {}, stats := { times := times } },
    rfl, rfl, rfl, by simp [successRateQ], ?_, ?_, ?_, ?_⟩
  · refine ⟨fbT0,
      fbT1 ++ orDefault hd.name "Hotel Name" ++ fbT2 ++ orDefault hd.name "Our Hotel" ++
      fbT3 ++ orDefault hd.description "Experience luxury and comfort at our hotel." ++
      fbT4 ++ orDefault hd.description
        "We provide exceptional service and comfortable accommodations for our guests." ++
      fbT5 ++ orDefault hd.address "Hotel Address" ++ fbT6 ++
      orDefault hd.phone "Contact us" ++ fbT7 ++ orDefault hd.email "info@hotel.com" ++
      fbT8 ++ orDefault hd.address "Hotel Address" ++ fbT9 ++ orDefault hd.name "Hotel" ++
      fbT10, ?_⟩
    simp [createFallbackHTML, orDefault, hname, String.append_assoc]
  · refine ⟨fbT0 ++ orDefault hd.name "Hotel" ++
      fbT1 ++ orDefault hd.name "Hotel Name" ++ fbT2 ++ orDefault hd.name "Our Hotel" ++
      fbT3 ++ orDefault hd.description "Experience luxury and comfort at our hotel." ++
      fbT4 ++ orDefault hd.description
        "We provide exceptional service and comfortable accommodations for our guests." ++
      fbT5,
      fbT6 ++ orDefault hd.phone "Contact us" ++ fbT7 ++
      orDefault hd.email "info@hotel.com" ++ fbT8 ++ orDefault hd.address "Hotel Address" ++
      fbT9 ++ orDefault hd.name "Hotel" ++ fbT10, ?_⟩
    simp [createFallbackHTML, orDefault, haddr, String.append_assoc]
  · refine ⟨fbT0 ++ orDefault hd.name "Hotel" ++
      fbT1 ++ orDefault hd.name "Hotel Name" ++ fbT2 ++ orDefault hd.name "Our Hotel" ++
      fbT3 ++ orDefault hd.description "Experience luxury and comfort at our hotel." ++
      fbT4 ++ orDefault hd.description
        "We provide exceptional service and comfortable accommodations for our guests." ++
      fbT5 ++ orDefault hd.address "Hotel Address" ++ fbT6,
      fbT7 ++ orDefault hd.email "info@hotel.com" ++ fbT8 ++
      orDefault hd.address "Hotel Address" ++ fbT9 ++ orDefault hd.name "Hotel" ++ fbT10, ?_⟩
    simp [createFallbackHTML, orDefault, hphone, String.append_assoc]
  · refine ⟨fbT0 ++ orDefault hd.name "Hotel" ++
      fbT1 ++ orDefault hd.name "Hotel Name" ++ fbT2 ++ orDefault hd.name "Our Hotel" ++
      fbT3 ++ orDefault hd.description "Experience luxury and comfort at our hotel." ++
      fbT4 ++ orDefault hd.description
        "We provide exceptional service and comfortable accommodations for our guests." ++
      fbT5 ++ orDefault hd.address "Hotel Address" ++ fbT6 ++
      orDefault hd.phone "Contact us" ++ fbT7,
      fbT8 ++ orDefault hd.address "Hotel Address" ++ fbT9 ++ orDefault hd.name "Hotel" ++
      fbT10, ?_⟩
    simp [createFallbackHTML, orDefault, hemail, String.append_assoc]

theorem c5_fallback_clone_completes_witness :
    (({ name := "Grand Hotel", address := "1 Seaside Road", phone := "+1 202 555 0100",
        email := "desk@grand.example" } : HotelData).name ≠ "" ∧
     ({ name := "Grand Hotel", address := "1 Seaside Road", phone := "+1 202 555 0100",
        email := "desk@grand.example" } : HotelData).address ≠ "" ∧
     ({ name := "Grand Hotel", address := "1 Seaside Road", phone := "+1 202 555 0100",
        email := "desk@grand.example" } : HotelData).phone ≠ "" ∧
     ({ name := "Grand Hotel", address := "1 Seaside Road", phone := "+1 202 555 0100",
        email := "desk@grand.example" } : HotelData).email ≠ "") ∧
    (∃ r, cloneSite none
        { name := "Grand Hotel", address := "1 Seaside Road", phone := "+1 202 555 0100",
          email := "desk@grand.example" }
        (fun _ => FetchOutcome.err "offline") (fun _ => none)
        "https://unreachable.example" "out" [] = Except.ok r ∧
      r.isFallback = true ∧ r.stats.totalAssets = 0 ∧ successRateQ r.stats = 0 ∧
      Occurs "Grand Hotel" r.finalHTML ∧ Occurs "1 Seaside Road" r.finalHTML ∧
      Occurs "+1 202 555 0100" r.finalHTML ∧ Occurs "desk@grand.example" r.finalHTML) :=
  ⟨⟨by decide, by decide, by decide, by decide⟩,
   c5_fallback_clone_completes
     { name := "Grand Hotel", address := "1 Seaside Road", phone := "+1 202 555 0100",
       email := "desk@grand.example" }
     (fun _ => FetchOutcome.err "offline") (fun _ => none)
     "https://unreachable.example" "out" [] (by decide) (by decide) (by decide) (by decide)⟩

/-! Helper lemmas: a `toFixed(2)` rendering always has exactly two digits
after the decimal point. -/

theorem digitChar_ne_dot (k : Nat) (h : k < 10) : Char.ofNat (48 + k) ≠ '.' := by
  interval_cases k <;> decide

theorem natDigitsAux_ne_dot (fuel : Nat) :
    ∀ n c, c ∈ natDigitsAux fuel n → c ≠ '.' := by
  induction fuel with
  | zero => intro n c hc; simp [natDigitsAux] at hc
  | succ fuel ih =>
    intro n c hc
    by_cases hn : n < 10
    · simp [natDigitsAux, hn] at hc
      subst hc
      exact digitChar_ne_dot n hn
    · simp [natDigitsAux, hn, List.mem_append] at hc
      rcases hc with hc | hc
      · exact ih _ _ hc
      · subst hc
        exact digitChar_ne_dot _ (Nat.mod_lt _ (by norm_num))

theorem natChars_ne_dot (n : Nat) : ∀ c ∈ natChars n, c ≠ '.' := by
  intro c hc
  exact natDigitsAux_ne_dot _ _ _ hc

theorem natDigitsAux_small (fuel n : Nat) (h : n < 10) :
    natDigitsAux (fuel + 1) n = [Char.ofNat (48 + n)] := by
  simp [natDigitsAux, h]

theorem natChars_small (n : Nat) (h : n < 10) : natChars n = [Char.ofNat (48 + n)] :=
  natDigitsAux_small n n h

theorem natChars_two_digits (n : Nat) (h1 : 10 ≤ n) (h2 : n < 100) :
    natChars n = [Char.ofNat (48 + n / 10), Char.ofNat (48 + n % 10)] := by
  obtain ⟨m, rfl⟩ : ∃ m, n = m + 1 := ⟨n - 1, by omega⟩
  have hn : ¬ (m + 1 < 10) := by omega
  have hdiv : (m + 1) / 10 < 10 := by omega
  unfold natChars
  simp [natDigitsAux, hn, hdiv]

theorem pad2_length (n : Nat) (h : n < 100) : (pad2 n).length = 2 := by
  by_cases hn : n < 10
  · simp [pad2, hn, natChars_small n hn]
  · simp [pad2, hn, natChars_two_digits n (by omega) h]

theorem pad2_ne_dot (n : Nat) : ∀ c ∈ pad2 n, c ≠ '.' := by
  intro c hc
  by_cases hn : n < 10
  · simp [pad2, hn] at hc
    rcases hc with hc | hc
    · subst hc; decide
    · exact natChars_ne_dot _ _ hc
  · simp [pad2, hn] at hc
    exact natChars_ne_dot _ _ hc

theorem takeWhile_append_all (p : Char → Bool) (xs ys : List Char)
    (h : ∀ c ∈ xs, p c = true) :
    (xs ++ ys).takeWhile p = xs ++ ys.takeWhile p := by
  induction xs with
  | nil => simp
  | cons c t ih =>
    have hc : p c = true := h c (by simp)
    simp [List.takeWhile_cons, hc]
    exact ih (fun d hd => h d (by simp [hd]))

theorem decimalsAfterPoint_jsToFixed2 (a b : Nat) :
    decimalsAfterPoint (jsToFixed2 a b) = 2 := by
  unfold jsToFixed2 decimalsAfterPoint
  have hr : (a * 20000 + b) / (2 * b) % 100 < 100 := Nat.mod_lt _ (by norm_num)
  set h100 := (a * 20000 + b) / (2 * b) with hh
  have : (String.mk (natChars (h100 / 100) ++ '.' :: pad2 (h100 % 100))).toList
      = natChars (h100 / 100) ++ '.' :: pad2 (h100 % 100) := rfl
  rw [this]
  rw [List.reverse_append, List.reverse_cons]
  rw [List.append_assoc]
  rw [takeWhile_append_all _ _ _ ?all]
  case all =>
    intro c hc
    rw [List.mem_reverse] at hc
    have := pad2_ne_dot _ _ hc
    simpa using this
  · rw [List.length_append]
    have h1 : (List.takeWhile (fun c => decide (c ≠ '.'))
        (['.'] ++ (natChars (h100 / 100)).reverse)).length = 0 := by
      simp [List.takeWhile_cons]
    rw [h1]
    simp [pad2_length _ hr]

/-- C8 amended: the statistics object's duration field is `duration`
(= `endTime - startTime`, milliseconds); `successRate` for a clone with at
least one counted asset is the `toFixed(2)` percentage string, which always
carries exactly **two** digits after the decimal point; the field list has
no `durationMs` and no embedded failed-asset list (that list lives in the
separate `failedAssets` array). -/
theorem c8_report_shape_actual (st : CloneState) (startT endT : Nat)
    (h : 0 < st.totalAssets) :
    (finalizeDebugReport st startT endT).duration = endT - startT ∧
    (finalizeDebugReport st startT endT).successRate
      = SuccessRateVal.pct (jsToFixed2 st.successfulDownloads st.totalAssets) ∧
    decimalsAfterPoint (jsToFixed2 st.successfulDownloads st.totalAssets) = 2 ∧
    "durationMs" ∉ debugReportFieldNames ∧
    "duration" ∈ debugReportFieldNames ∧
    "failedAssets" ∉ debugReportFieldNames := by
  refine ⟨rfl, ?_, decimalsAfterPoint_jsToFixed2 _ _, by decide, by decide, by decide⟩
  simp [finalizeDebugReport, h]

theorem c8_report_shape_actual_witness :
    (0 < ({ totalAssets := 4, successfulDownloads := 1,
            failedDownloads := 3 } : CloneState).totalAssets) ∧
    ((finalizeDebugReport
        { totalAssets := 4, successfulDownloads := 1, failedDownloads := 3 }
        100 450).duration = 450 - 100 ∧
     (finalizeDebugReport
        { totalAssets := 4, successfulDownloads := 1, failedDownloads := 3 }
        100 450).successRate = SuccessRateVal.pct (jsToFixed2 1 4) ∧
     decimalsAfterPoint (jsToFixed2 1 4) = 2 ∧
     "durationMs" ∉ debugReportFieldNames ∧
     "duration" ∈ debugReportFieldNames ∧
     "failedAssets" ∉ debugReportFieldNames) :=
  ⟨by decide,
   c8_report_shape_actual
     { totalAssets := 4, successfulDownloads := 1, failedDownloads := 3 }
     100 450 (by decide)⟩

/-! Helper lemmas for the name-pattern proof. -/

theorem replaceAllAux_nil (m : Matcher) (repl : List Char) (fuel : Nat) (prev : Option Char) :
    replaceAllAux m repl fuel prev [] = [] := by
  cases fuel <;> rfl

theorem isPrefixOf_self_append (l r : List Char) : l.isPrefixOf (l ++ r) = true := by
  induction l with
  | nil => simp
  | cons c t ih => simp [List.isPrefixOf, ih]

theorem ciStarts_self_append (l r : List Char) : ciStarts l (l ++ r) = true := by
  unfold ciStarts
  rw [List.map_append]
  exact isPrefixOf_self_append _ _

/-- The name matcher consumes the whole of ``base ++ " Hotel"`` at its
start, provided `base` is a non-empty alphabetic literal. -/
theorem nameMatcher_whole (base : List Char) (hne : base ≠ [])
    (halpha : ∀ c ∈ base, c.isAlpha = true) :
    nameMatcher base none (base ++ " Hotel".toList) = some (base.length + 6) := by
  obtain ⟨c, bt, rfl⟩ : ∃ c bt, base = c :: bt := by
    cases base with
    | nil => exact absurd rfl hne
    | cons c bt => exact ⟨c, bt, rfl⟩
  have hword : isWordChar c = true := by
    have := halpha c (by simp)
    simp [isWordChar, Char.isAlphanum, this]
  have hbound : isBoundary none (some c) = true := by
    simp [isBoundary, wordOpt, hword]
  have hstarts : ciStarts (c :: bt) (c :: bt ++ " Hotel".toList) = true := by
    simpa using ciStarts_self_append (c :: bt) " Hotel".toList
  have hdrop : (c :: bt ++ " Hotel".toList).drop (c :: bt).length = " Hotel".toList :=
    List.drop_left _ _
  unfold nameMatcher
  rw [if_neg (by simp)]
  rw [if_neg (by simp [hbound])]
  rw [if_pos hstarts]
  rw [hdrop]
  have hcount : countLeading Char.isWhitespace " Hotel".toList = 1 := by decide
  rw [hcount]
  show nameTryK (c :: bt) (c :: bt ++ " Hotel".toList) (0 + 1) = _
  unfold nameTryK
  have hdrop1 : (c :: bt ++ " Hotel".toList).drop ((c :: bt).length + (0 + 1))
      = "Hotel".toList := by
    rw [List.drop_append]
    rfl
  have hprev : prevCharAt (c :: bt ++ " Hotel".toList) ((c :: bt).length + (0 + 1))
      = some ' ' := by
    unfold prevCharAt
    rw [if_neg (by omega)]
    have : (c :: bt).length + (0 + 1) - 1 = (c :: bt).length + 0 := by omega
    rw [this]
    rw [List.get?_append_right (by omega)]
    simp
  rw [hdrop1, hprev]
  have hsuf : nameSuffix ((c :: bt).length + (0 + 1)) (some ' ') "Hotel".toList
      = some ((c :: bt).length + (0 + 1) + 5) := by
    unfold nameSuffix
    rw [if_pos (by constructor <;> decide)]
  rw [hsuf]

/-- C9 amended: for a new name of the claim's example shape — an alphabetic
base followed by a trailing `" Hotel"` keyword — a repeated injection with
the same name (the old name re-detected as that same, already-correct name)
leaves a text node reading exactly the name unchanged: the pattern matches
the whole name and replaces it with itself. -/
theorem c9_trailing_keyword_name_idempotent (base : List Char)
    (hne : base ≠ []) (halpha : ∀ c ∈ base, c.isAlpha = true)
    (hbase : nameBase (base ++ " Hotel".toList) = base) :
    replaceNameIn (base ++ " Hotel".toList) (base ++ " Hotel".toList)
        (base ++ " Hotel".toList)
      = base ++ " Hotel".toList := by
  unfold replaceNameIn
  rw [hbase]
  obtain ⟨c, bt, rfl⟩ : ∃ c bt, base = c :: bt := by
    cases base with
    | nil => exact absurd rfl hne
    | cons c bt => exact ⟨c, bt, rfl⟩
  have hmatch := nameMatcher_whole (c :: bt) hne halpha
  unfold replaceAllMatches
  have hcons : (c :: bt) ++ " Hotel".toList = c :: (bt ++ " Hotel".toList) := by simp
  have hlen : ((c :: bt) ++ " Hotel".toList).length = (bt ++ " Hotel".toList).length + 1 := by
    simp
  rw [hcons] at hmatch ⊢
  rw [show (c :: (bt ++ " Hotel".toList)).length + 1
      = ((bt ++ " Hotel".toList).length + 1) + 1 from by simp]
  unfold replaceAllAux
  rw [hmatch]
  have hsucc : (c :: bt).length + 6 = (((c :: bt).length + 5) + 1) := by omega
  rw [hsucc]
  show (c :: (bt ++ " Hotel".toList)) ++
      replaceAllAux (nameMatcher (c :: bt)) (c :: (bt ++ " Hotel".toList))
        ((bt ++ " Hotel".toList).length + 1)
        (some ((c :: (bt ++ " Hotel".toList)).getD ((c :: bt).length + 5) c))
        ((c :: (bt ++ " Hotel".toList)).drop ((c :: bt).length + 5 + 1))
    = c :: (bt ++ " Hotel".toList)
  have hdropall : (c :: (bt ++ " Hotel".toList)).drop ((c :: bt).length + 5 + 1) = [] := by
    have hsix : (" Hotel".toList : List Char).length = 6 := by decide
    have hlen2 : (c :: (bt ++ " Hotel".toList)).length = (c :: bt).length + 5 + 1 := by
      simp only [List.length_cons, List.length_append, hsix]
    rw [← hlen2]
    exact List.drop_length _
  rw [hdropall, replaceAllAux_nil]
  simp

theorem c9_trailing_keyword_name_idempotent_witness :
    (("Grand".toList ≠ []) ∧
     (∀ c ∈ "Grand".toList, c.isAlpha = true) ∧
     nameBase ("Grand".toList ++ " Hotel".toList) = "Grand".toList) ∧
    replaceNameIn ("Grand".toList ++ " Hotel".toList) ("Grand".toList ++ " Hotel".toList)
        ("Grand".toList ++ " Hotel".toList)
      = "Grand".toList ++ " Hotel".toList :=
  ⟨⟨by decide, by decide, by decide⟩,
   c9_trailing_keyword_name_idempotent "Grand".toList (by decide) (by decide) (by decide)⟩

/-- C6 amended: the `≥30%`/`≥10`-character gate governs (only) the
multi-word partial branch: when the whole-address replace is a no-op, none
of the three ungated indicator patterns matches, the partial matches fail
the gate, and the last-resort sentence branch does not fire, the text node
is unchanged. -/
theorem c6_partial_gate_between_branches (oldA newA text : List Char)
    (hold : oldA ≠ []) (hnew : newA ≠ [])
    (hfull : replaceAllMatches (ciLitMatcher (normalizeWs oldA)) newA text = text)
    (ht : matchAllMatches (kwMatcher turkishIndicatorKws) text = [])
    (he : matchAllMatches (kwMatcher englishIndicatorKws) text = [])
    (hdg : matchAllMatches digitIndicatorMatcher text = [])
    (hgate : 100 * totalMatchLength (matchAllMatches
          (partialMatcher (partialPatternsOf (addressParts oldA))) text)
        < 30 * text.length
      ∨ totalMatchLength (matchAllMatches
          (partialMatcher (partialPatternsOf (addressParts oldA))) text) < 10)
    (hlast : lastResortReplace newA text = none) :
    replaceAddress oldA newA text = text := by
  unfold replaceAddress
  rw [if_neg (by simp [hold, hnew])]
  simp only [hfull, ht, he, hdg, ne_eq, not_true_eq_false, if_false, ite_self]
  cases hp : partialPatternsOf (addressParts oldA) with
  | nil =>
    simp [hp, hlast]
  | cons p ps =>
    rw [hp] at hgate
    cases hm : matchAllMatches (partialMatcher (p :: ps)) text with
    | nil => simp [hm, hlast]
    | cons m ms =>
      rw [hm] at hgate
      have hcond : ¬(30 * text.length ≤ 100 * totalMatchLength (m :: ms)
          ∧ 10 ≤ totalMatchLength (m :: ms)) := by omega
      simp [hm, hcond, hlast]

theorem c6_partial_gate_between_branches_witness :
    (c6OldAddr ≠ [] ∧ c6NewAddr ≠ [] ∧
     replaceAllMatches (ciLitMatcher (normalizeWs c6OldAddr)) c6NewAddr c6GateText
       = c6GateText ∧
     matchAllMatches (kwMatcher turkishIndicatorKws) c6GateText = [] ∧
     matchAllMatches (kwMatcher englishIndicatorKws) c6GateText = [] ∧
     matchAllMatches digitIndicatorMatcher c6GateText = [] ∧
     (100 * totalMatchLength (matchAllMatches
          (partialMatcher (partialPatternsOf (addressParts c6OldAddr))) c6GateText)
        < 30 * c6GateText.length
      ∨ totalMatchLength (matchAllMatches
          (partialMatcher (partialPatternsOf (addressParts c6OldAddr))) c6GateText) < 10) ∧
     lastResortReplace c6NewAddr c6GateText = none) ∧
    replaceAddress c6OldAddr c6NewAddr c6GateText = c6GateText := by
  set_option maxRecDepth 100000 in
  refine ⟨⟨by decide, by decide, by rfl, by rfl, by rfl, by rfl, Or.inl (by decide), by rfl⟩,
    c6_partial_gate_between_branches c6OldAddr c6NewAddr c6GateText
      (by decide) (by decide) (by rfl) (by rfl) (by rfl) (by rfl)
      (Or.inl (by decide)) (by rfl)⟩

/-! Helper lemmas for the counter-drift analysis (C10). -/

theorem resolveUrlL_isSome (baseUrl : List Char) (hbase : (parseUrl baseUrl).isSome = true)
    (href : List Char) : ∃ a, resolveUrlL href baseUrl = some a := by
  obtain ⟨u, hu⟩ := Option.isSome_iff_exists.mp hbase
  unfold resolveUrlL
  split
  · exact ⟨_, rfl⟩
  · split
    · exact ⟨_, rfl⟩
    · rw [hu]
      show ∃ a, (if listStarts "/".toList href = true
          then some (u.protocol ++ "//".toList ++ u.host ++ href)
          else some (resolveRelative href u)) = some a
      split
      · exact ⟨_, rfl⟩
      · exact ⟨_, rfl⟩

theorem resolveUrl_isSome (baseUrl : String) (hbase : (parseUrl baseUrl.toList).isSome = true)
    (href : String) : ∃ a, resolveUrl href baseUrl = some a := by
  obtain ⟨a, ha⟩ := resolveUrlL_isSome baseUrl.toList hbase href.toList
  refine ⟨String.mk a, ?_⟩
  unfold resolveUrl
  rw [ha]
  rfl

theorem downloadAsset_ok (net : Network) (url localPath : String) (st : CloneState)
    (h : fetchOk net url = true) :
    ∃ st', downloadAsset net url localPath st = (Except.ok (), st') ∧
      st'.totalAssets = st.totalAssets ∧
      st'.successfulDownloads = st.successfulDownloads := by
  unfold downloadAsset
  by_cases hmem : url ∈ st.downloadedAssets
  · rw [if_pos hmem]
    exact ⟨st, rfl, rfl, rfl⟩
  · rw [if_neg hmem]
    cases hnet : net url with
    | err m =>
      unfold fetchOk at h
      rw [hnet] at h
      exact absurd h (by simp)
    | ok ct body =>
      have h3 : (!(isHtmlResponse ct && isErrorPage body)) = true := by
        have h2 := h
        unfold fetchOk at h2
        rw [hnet] at h2
        exact h2
      have hcond : (isHtmlResponse ct && isErrorPage body) = false := by
        cases hb : isHtmlResponse ct && isErrorPage body
        · rfl
        · rw [hb] at h3; simp at h3
      refine ⟨{ st with fetchLog := st.fetchLog ++ [url], filesWritten := st.filesWritten ++ [localPath], downloadedAssets := url :: st.downloadedAssets }, ?_, rfl, rfl⟩
      simp [hnet, hcond]

theorem processJSOne_counts (net : Network) (baseUrl : String)
    (hnet : ∀ u, fetchOk net u = true)
    (hbase : (parseUrl baseUrl.toList).isSome = true) (src : String) (st : CloneState) :
    (processJSOne net baseUrl src st).2.totalAssets
      = st.totalAssets + (if src ≠ "" then 1 else 0) ∧
    (processJSOne net baseUrl src st).2.successfulDownloads
      = st.successfulDownloads + (if src ≠ "" then 1 else 0) := by
  by_cases hsrc : src = ""
  · simp [processJSOne, hsrc]
  · obtain ⟨abs, habs⟩ := resolveUrl_isSome baseUrl hbase src
    obtain ⟨st', hd, h1, h2⟩ := downloadAsset_ok net abs
      ("js/" ++ generateFileName src "js" (st.times.head?.getD 0))
      { st with totalAssets := st.totalAssets + 1, times := st.times.tail } (hnet abs)
    have key : processJSOne net baseUrl src st
        = ("js/" ++ generateFileName src "js" (st.times.head?.getD 0),
           { st' with successfulDownloads := st'.successfulDownloads + 1 }) := by
      simp [processJSOne, hsrc, habs, takeTime]
      rw [hd]
    rw [key]
    refine ⟨?_, ?_⟩ <;> simp [h1, h2, hsrc]

theorem processEnhancedJSAssets_counts (net : Network) (baseUrl : String)
    (hnet : ∀ u, fetchOk net u = true)
    (hbase : (parseUrl baseUrl.toList).isSome = true) :
    ∀ (srcs : List String) (st : CloneState),
      (processEnhancedJSAssets net baseUrl srcs st).2.totalAssets
        = st.totalAssets + jsCount srcs ∧
      (processEnhancedJSAssets net baseUrl srcs st).2.successfulDownloads
        = st.successfulDownloads + jsCount srcs := by
  intro srcs
  induction srcs with
  | nil => intro st; simp [processEnhancedJSAssets, jsCount]
  | cons src rest ih =>
    intro st
    obtain ⟨h1, h2⟩ := processJSOne_counts net baseUrl hnet hbase src st
    obtain ⟨ih1, ih2⟩ := ih (processJSOne net baseUrl src st).2
    have hcount : jsCount (src :: rest) = (if src ≠ "" then 1 else 0) + jsCount rest := by
      by_cases hsrc : src = "" <;> simp [jsCount, List.filter, hsrc] <;> omega
    constructor
    · show (processEnhancedJSAssets net baseUrl (src :: rest) st).2.totalAssets = _
      unfold processEnhancedJSAssets
      simp only []
      rw [ih1, h1, hcount]  
      omega
    · unfold processEnhancedJSAssets
      simp only []
      rw [ih2, h2, hcount]
      omega

theorem processImgOne_counts (net : Network) (fsCopy : FsCopy) (baseUrl : String)
    (hd : HotelData) (hnet : ∀ u, fetchOk net u = true) (hfs : ∀ p, fsCopy p = none)
    (hbase : (parseUrl baseUrl.toList).isSome = true) (img : ImgEl) (st : CloneState) :
    (processImgOne net fsCopy baseUrl hd img st).2.totalAssets
      = st.totalAssets + imgCountedOne hd img ∧
    (processImgOne net fsCopy baseUrl hd img st).2.successfulDownloads
      = st.successfulDownloads + imgSuccOne img := by
  by_cases hsrc : img.src = ""
  · simp [processImgOne, hsrc, imgCountedOne, imgSuccOne]
  · by_cases hlogo : isLogoImg img = true ∧ hd.logo ≠ ""
    · refine ⟨?_, ?_⟩ <;>
        simp [processImgOne, hsrc, hlogo, hfs, imgCountedOne, imgSuccOne]
    · obtain ⟨abs, habs⟩ := resolveUrl_isSome baseUrl hbase img.src
      obtain ⟨st', hdl, h1, h2⟩ := downloadAsset_ok net abs
        ("images/" ++ generateFileName img.src "img" (st.times.head?.getD 0))
        { st with totalAssets := st.totalAssets + 1, times := st.times.tail } (hnet abs)
      have key : processImgOne net fsCopy baseUrl hd img st
          = ({ img with src := "images/" ++ generateFileName img.src "img" (st.times.head?.getD 0) },
             { st' with successfulDownloads := st'.successfulDownloads + 1 }) := by
        simp [processImgOne, hsrc, hlogo, habs, takeTime]
        rw [hdl]
      rw [key]
      refine ⟨?_, ?_⟩ <;> simp [h1, h2, hsrc, hlogo, imgCountedOne, imgSuccOne]

theorem processEnhancedImageAssets_counts (net : Network) (fsCopy : FsCopy)
    (baseUrl : String) (hd : HotelData)
    (hnet : ∀ u, fetchOk net u = true) (hfs : ∀ p, fsCopy p = none)
    (hbase : (parseUrl baseUrl.toList).isSome = true) :
    ∀ (imgs : List ImgEl) (st : CloneState),
      (processEnhancedImageAssets net fsCopy baseUrl hd imgs st).2.totalAssets
        = st.totalAssets + (imgs.map (imgCountedOne hd)).sum ∧
      (processEnhancedImageAssets net fsCopy baseUrl hd imgs st).2.successfulDownloads
        = st.successfulDownloads + (imgs.map imgSuccOne).sum := by
  intro imgs
  induction imgs with
  | nil => intro st; simp [processEnhancedImageAssets]
  | cons img rest ih =>
    intro st
    obtain ⟨h1, h2⟩ := processImgOne_counts net fsCopy baseUrl hd hnet hfs hbase img st
    obtain ⟨ih1, ih2⟩ := ih (processImgOne net fsCopy baseUrl hd img st).2
    constructor
    · unfold processEnhancedImageAssets
      simp only [List.map_cons, List.sum_cons]
      rw [ih1, h1]
      omega
    · unfold processEnhancedImageAssets
      simp only [List.map_cons, List.sum_cons]
      rw [ih2, h2]
      omega

theorem downloadSrcsetUrls_counts (net : Network) (baseUrl : String)
    (hnet : ∀ u, fetchOk net u = true)
    (hbase : (parseUrl baseUrl.toList).isSome = true) :
    ∀ (urls : List String) (st : CloneState),
      ∃ st', downloadSrcsetUrls net baseUrl urls st = (Except.ok (), st') ∧
        st'.totalAssets = st.totalAssets ∧
        st'.successfulDownloads = st.successfulDownloads + urls.length := by
  intro urls
  induction urls with
  | nil => intro st; exact ⟨st, rfl, rfl, rfl⟩
  | cons url rest ih =>
    intro st
    obtain ⟨abs, habs⟩ := resolveUrl_isSome baseUrl hbase url
    obtain ⟨st', hdl, h1, h2⟩ := downloadAsset_ok net abs
      ("images/" ++ generateFileName url "img" (st.times.head?.getD 0))
      { st with times := st.times.tail } (hnet abs)
    obtain ⟨st'', hrec, hr1, hr2⟩ := ih { st' with successfulDownloads := st'.successfulDownloads + 1 }
    refine ⟨st'', ?_, ?_, ?_⟩
    · have key : downloadSrcsetUrls net baseUrl (url :: rest) st
          = downloadSrcsetUrls net baseUrl rest
              { st' with successfulDownloads := st'.successfulDownloads + 1 } := by
        simp [downloadSrcsetUrls, habs, takeTime]
        rw [hdl]
      rw [key, hrec]
    · rw [hr1]
      simpa using h1
    · rw [hr2]
      simp [h2]
      omega

theorem rewriteSrcset_counts :
    ∀ (urls : List String) (st : CloneState),
      (rewriteSrcset urls st).2.totalAssets = st.totalAssets ∧
      (rewriteSrcset urls st).2.successfulDownloads = st.successfulDownloads := by
  intro urls
  induction urls with
  | nil => intro st; simp [rewriteSrcset]
  | cons url rest ih =>
    intro st
    cases rest with
    | nil => simp [rewriteSrcset, takeTime]
    | cons v vs =>
      obtain ⟨ih1, ih2⟩ := ih { st with times := st.times.tail }
      unfold rewriteSrcset
      simp only [takeTime]
      constructor
      · simpa using ih1
      · simpa using ih2

theorem processSrcsetOne_counts (net : Network) (baseUrl : String)
    (hnet : ∀ u, fetchOk net u = true)
    (hbase : (parseUrl baseUrl.toList).isSome = true) (srcset : String) (st : CloneState) :
    (processSrcsetOne net baseUrl srcset st).2.totalAssets = st.totalAssets ∧
    (processSrcsetOne net baseUrl srcset st).2.successfulDownloads
      = st.successfulDownloads + srcsetSuccOne srcset := by
  by_cases hs : srcset = ""
  · simp [processSrcsetOne, hs, srcsetSuccOne]
  · obtain ⟨st', hdl, h1, h2⟩ :=
      downloadSrcsetUrls_counts net baseUrl hnet hbase (srcsetUrlsOf srcset) st
    obtain ⟨hr1, hr2⟩ := rewriteSrcset_counts (srcsetUrlsOf srcset) st'
    have key : processSrcsetOne net baseUrl srcset st
        = ((rewriteSrcset (srcsetUrlsOf srcset) st').1,
           (rewriteSrcset (srcsetUrlsOf srcset) st').2) := by
      simp [processSrcsetOne, hs]
      rw [hdl]
    rw [key]
    refine ⟨?_, ?_⟩
    · rw [hr1, h1]
    · rw [hr2, h2]
      simp [srcsetSuccOne, hs, srcsetUrlsOf]

theorem processSrcsetList_counts (net : Network) (baseUrl : String)
    (hnet : ∀ u, fetchOk net u = true)
    (hbase : (parseUrl baseUrl.toList).isSome = true) :
    ∀ (srcsets : List String) (st : CloneState),
      (processSrcsetList net baseUrl srcsets st).2.totalAssets = st.totalAssets ∧
      (processSrcsetList net baseUrl srcsets st).2.successfulDownloads
        = st.successfulDownloads + (srcsets.map srcsetSuccOne).sum := by
  intro srcsets
  induction srcsets with
  | nil => intro st; simp [processSrcsetList]
  | cons x rest ih =>
    intro st
    obtain ⟨h1, h2⟩ := processSrcsetOne_counts net baseUrl hnet hbase x st
    obtain ⟨ih1, ih2⟩ := ih (processSrcsetOne net baseUrl x st).2
    constructor
    · unfold processSrcsetList
      simp only []
      rw [ih1, h1]
    · unfold processSrcsetList
      simp only [List.map_cons, List.sum_cons]
      rw [ih2, h2]
      omega

theorem processPictureImg_counts (net : Network) (baseUrl : String)
    (hnet : ∀ u, fetchOk net u = true)
    (hbase : (parseUrl baseUrl.toList).isSome = true) (src : String) (st : CloneState) :
    (processPictureImg net baseUrl src st).2.totalAssets
      = st.totalAssets + (if src ≠ "" then 1 else 0) ∧
    (processPictureImg net baseUrl src st).2.successfulDownloads
      = st.successfulDownloads + (if src ≠ "" then 1 else 0) := by
  by_cases hsrc : src = ""
  · simp [processPictureImg, hsrc]
  · obtain ⟨abs, habs⟩ := resolveUrl_isSome baseUrl hbase src
    obtain ⟨st', hdl, h1, h2⟩ := downloadAsset_ok net abs
      ("images/" ++ generateFileName src "img" (st.times.head?.getD 0))
      { st with totalAssets := st.totalAssets + 1, times := st.times.tail } (hnet abs)
    have key : processPictureImg net baseUrl src st
        = ("images/" ++ generateFileName src "img" (st.times.head?.getD 0),
           { st' with successfulDownloads := st'.successfulDownloads + 1 }) := by
      simp [processPictureImg, hsrc, habs, takeTime]
      rw [hdl]
    rw [key]
    refine ⟨?_, ?_⟩ <;> simp [h1, h2, hsrc]

theorem processPictureElements_counts (net : Network) (baseUrl : String)
    (hnet : ∀ u, fetchOk net u = true)
    (hbase : (parseUrl baseUrl.toList).isSome = true) :
    ∀ (pics : List PictureEl) (st : CloneState),
      (processPictureElements net baseUrl pics st).2.totalAssets
        = st.totalAssets + (pics.map picCountedOne).sum ∧
      (processPictureElements net baseUrl pics st).2.successfulDownloads
        = st.successfulDownloads + (pics.map picSuccOne).sum := by
  intro pics
  induction pics with
  | nil => intro st; simp [processPictureElements]
  | cons pic rest ih =>
    intro st
    obtain ⟨hs1, hs2⟩ := processSrcsetList_counts net baseUrl hnet hbase pic.sources st
    obtain ⟨hi1, hi2⟩ := processPictureImg_counts net baseUrl hnet hbase pic.imgSrc
      (processSrcsetList net baseUrl pic.sources st).2
    obtain ⟨ih1, ih2⟩ := ih (processPictureOne net baseUrl pic st).2
    have hone1 : (processPictureOne net baseUrl pic st).2.totalAssets
        = st.totalAssets + picCountedOne pic := by
      unfold processPictureOne
      simp only []
      rw [hi1, hs1, picCountedOne]
    have hone2 : (processPictureOne net baseUrl pic st).2.successfulDownloads
        = st.successfulDownloads + picSuccOne pic := by
      unfold processPictureOne
      simp only []
      rw [hi2, hs2, picSuccOne]
      omega
    constructor
    · unfold processPictureElements
      simp only [List.map_cons, List.sum_cons]
      rw [ih1, hone1]
      omega
    · unfold processPictureElements
      simp only [List.map_cons, List.sum_cons]
      rw [ih2, hone2]
      omega

theorem sum_lt_sum_of_mem {α : Type} (l : List α) (f g : α → Nat)
    (hle : ∀ x ∈ l, f x ≤ g x) (a : α) (ha : a ∈ l) (hlt : f a < g a) :
    (l.map f).sum < (l.map g).sum := by
  obtain ⟨s, t, rfl⟩ := List.append_of_mem ha
  have h1 : (s.map f).sum ≤ (s.map g).sum :=
    List.sum_le_sum (fun x hx => hle x (by simp [hx]))
  have h2 : (t.map f).sum ≤ (t.map g).sum :=
    List.sum_le_sum (fun x hx => hle x (by simp [hx]))
  simp only [List.map_append, List.sum_append, List.map_cons, List.sum_cons]
  omega

theorem elem_le_sum {α : Type} (l : List α) (f : α → Nat) (a : α) (ha : a ∈ l) :
    f a ≤ (l.map f).sum := by
  obtain ⟨s, t, rfl⟩ := List.append_of_mem ha
  simp only [List.map_append, List.sum_append, List.map_cons, List.sum_cons]
  omega

theorem imgCountedOne_le_succOne (hd : HotelData) (i : ImgEl) :
    imgCountedOne hd i ≤ imgSuccOne i := by
  unfold imgCountedOne imgSuccOne
  split_ifs with h1 h2
  · omega
  · exact absurd h1.1 h2
  · omega
  · omega

theorem picCountedOne_le_succOne (p : PictureEl) : picCountedOne p ≤ picSuccOne p := by
  unfold picCountedOne picSuccOne
  exact Nat.le_add_left _ _

theorem splitChar_ne_nil (sep : Char) (l : List Char) : splitChar sep l ≠ [] := by
  cases l with
  | nil => simp [splitChar]
  | cons c rest =>
    unfold splitChar
    cases splitChar sep rest with
    | nil => simp
    | cons rs rss => by_cases hc : c = sep <;> simp [hc]

theorem srcsetSuccOne_pos (s : String) (h : s ≠ "") : 1 ≤ srcsetSuccOne s := by
  unfold srcsetSuccOne
  rw [if_pos h]
  unfold srcsetUrlsOf
  rw [List.length_map]
  have hne := splitChar_ne_nil ',' s.toList
  cases hx : splitChar ',' s.toList with
  | nil => exact absurd hx hne
  | cons a b => simp [hx]

/-- C10: with a new logo supplied, at least one logo image or one
`source[srcset]` URL (whose successful handling increments
`successfulDownloads` with no `totalAssets` increment), at least one
ordinary counted image, and every download and copy succeeding,
`successfulDownloads` exceeds `totalAssets` and the computed success rate
exceeds 100%. -/
theorem c10_uncounted_successes_inflate_rate
    (net : Network) (fsCopy : FsCopy) (pageUrl outputDir : String) (times : List Nat)
    (hd : HotelData) (doc : DocumentModel)
    (hnet : ∀ u, fetchOk net u = true) (hfs : ∀ p, fsCopy p = none)
    (hbase : (parseUrl pageUrl.toList).isSome = true) (hlogo : hd.logo ≠ "")
    (hpresent : (∃ i ∈ doc.images, i.src ≠ "" ∧ isLogoImg i = true) ∨
                (∃ p ∈ doc.pictures, ∃ s ∈ p.sources, s ≠ ""))
    (hother : ∃ i ∈ doc.images, i.src ≠ "" ∧ isLogoImg i = false) :
    ∃ r, cloneSite (some doc) hd net fsCopy pageUrl outputDir times = Except.ok r ∧
      r.stats.totalAssets < r.stats.successfulDownloads ∧
      100 < successRateQ r.stats := by
  obtain ⟨hjs1, hjs2⟩ :=
    processEnhancedJSAssets_counts net pageUrl hnet hbase doc.scripts { times := times }
  obtain ⟨himg1, himg2⟩ :=
    processEnhancedImageAssets_counts net fsCopy pageUrl hd hnet hfs hbase doc.images
      (processEnhancedJSAssets net pageUrl doc.scripts { times := times }).2
  obtain ⟨hpic1, hpic2⟩ :=
    processPictureElements_counts net pageUrl hnet hbase doc.pictures
      (processEnhancedImageAssets net fsCopy pageUrl hd doc.images
        (processEnhancedJSAssets net pageUrl doc.scripts { times := times }).2).2
  set stFinal := (processPictureElements net pageUrl doc.pictures
      (processEnhancedImageAssets net fsCopy pageUrl hd doc.images
        (processEnhancedJSAssets net pageUrl doc.scripts { times := times }).2).2).2 with hstFinal
  have htotal : stFinal.totalAssets
      = jsCount doc.scripts + (doc.images.map (imgCountedOne hd)).sum
        + (doc.pictures.map picCountedOne).sum := by
    rw [hstFinal, hpic1, himg1, hjs1]
    simp
  have hsucc : stFinal.successfulDownloads
      = jsCount doc.scripts + (doc.images.map imgSuccOne).sum
        + (doc.pictures.map picSuccOne).sum := by
    rw [hstFinal, hpic2, himg2, hjs2]
    simp
  have himgle : (doc.images.map (imgCountedOne hd)).sum ≤ (doc.images.map imgSuccOne).sum :=
    List.sum_le_sum (fun i _ => imgCountedOne_le_succOne hd i)
  have hpicle : (doc.pictures.map picCountedOne).sum ≤ (doc.pictures.map picSuccOne).sum :=
    List.sum_le_sum (fun p _ => picCountedOne_le_succOne p)
  have hstrict : (doc.images.map (imgCountedOne hd)).sum + (doc.pictures.map picCountedOne).sum
      < (doc.images.map imgSuccOne).sum + (doc.pictures.map picSuccOne).sum := by
    rcases hpresent with ⟨i, hi, hisrc, hilogo⟩ | ⟨p, hp, sEl, hsEl, hsne⟩
    · have hlt : imgCountedOne hd i < imgSuccOne i := by
        simp [imgCountedOne, imgSuccOne, hisrc, hilogo, hlogo]
      have := sum_lt_sum_of_mem doc.images (imgCountedOne hd) imgSuccOne
        (fun x _ => imgCountedOne_le_succOne hd x) i hi hlt
      omega
    · have hlt : picCountedOne p < picSuccOne p := by
        have h1 : 1 ≤ srcsetSuccOne sEl := srcsetSuccOne_pos sEl hsne
        have h2 : srcsetSuccOne sEl ≤ (p.sources.map srcsetSuccOne).sum :=
          elem_le_sum p.sources srcsetSuccOne sEl hsEl
        unfold picCountedOne picSuccOne
        omega
      have := sum_lt_sum_of_mem doc.pictures picCountedOne picSuccOne
        (fun x _ => picCountedOne_le_succOne x) p hp hlt
      omega
  have hpos : 1 ≤ (doc.images.map (imgCountedOne hd)).sum := by
    obtain ⟨i, hi, hisrc, hilogo⟩ := hother
    have h1 : imgCountedOne hd i = 1 := by
      simp [imgCountedOne, hisrc, hilogo]
    have := elem_le_sum doc.images (imgCountedOne hd) i hi
    omega
  have hlt : stFinal.totalAssets < stFinal.successfulDownloads := by
    rw [htotal, hsucc]
    omega
  have htpos : 0 < stFinal.totalAssets := by
    rw [htotal]
    omega
  refine ⟨_, rfl, ?_, ?_⟩
  · exact hlt
  · show 100 < successRateQ stFinal
    unfold successRateQ
    rw [if_pos htpos]
    rw [lt_div_iff (by exact_mod_cast htpos)]
    have hcast : (stFinal.totalAssets : ℚ) < (stFinal.successfulDownloads : ℚ) := by
      exact_mod_cast hlt
    nlinarith

theorem c10_uncounted_successes_inflate_rate_witness :
    ((∀ u : String, fetchOk (fun _ : String => FetchOutcome.ok "image/png" "data") u = true) ∧
     (∀ p : String, (fun _ : String => (none : Option String)) p = none) ∧
     (parseUrl ("https://site.example/index.html" : String).toList).isSome = true ∧
     ({ name := "New Hotel", logo := "/uploads/new-logo.png" } : HotelData).logo ≠ "" ∧
     ((∃ i ∈ [({ src := "https://site.example/logo.png" } : ImgEl),
               { src := "https://site.example/photo.jpg" }],
        i.src ≠ "" ∧ isLogoImg i = true) ∨
      (∃ p ∈ ([] : List PictureEl), ∃ s ∈ p.sources, s ≠ "")) ∧
     (∃ i ∈ [({ src := "https://site.example/logo.png" } : ImgEl),
             { src := "https://site.example/photo.jpg" }],
        i.src ≠ "" ∧ isLogoImg i = false)) ∧
    (∃ r, cloneSite
        (some { images := [{ src := "https://site.example/logo.png" },
                           { src := "https://site.example/photo.jpg" }] })
        { name := "New Hotel", logo := "/uploads/new-logo.png" }
        (fun _ => FetchOutcome.ok "image/png" "data") (fun _ => none)
        "https://site.example/index.html" "out" [10, 11] = Except.ok r ∧
      r.stats.totalAssets < r.stats.successfulDownloads ∧
      100 < successRateQ r.stats) := by
  constructor
  · refine ⟨fun u => rfl, fun p => rfl, rfl, by decide, ?_, ?_⟩
    · exact Or.inl ⟨{ src := "https://site.example/logo.png" }, by decide, by decide, by decide⟩
    · exact ⟨{ src := "https://site.example/photo.jpg" }, by decide, by decide, by decide⟩
  · exact c10_uncounted_successes_inflate_rate
      (fun _ => FetchOutcome.ok "image/png" "data") (fun _ => none)
      "https://site.example/index.html" "out" [10, 11]
      { name := "New Hotel", logo := "/uploads/new-logo.png" }
      { images := [{ src := "https://site.example/logo.png" },
                   { src := "https://site.example/photo.jpg" }] }
      (fun u => rfl) (fun p => rfl) rfl (by decide)
      (Or.inl ⟨{ src := "https://site.example/logo.png" }, by decide, by decide, by decide⟩)
      ⟨{ src := "https://site.example/photo.jpg" }, by decide, by decide, by decide⟩

end WebsiteCloner
